import Mathlib

/-!
Verification of the `messenger_wrapped` analysis pipeline.

This file shallowly embeds the core of the repository in Lean 4:
`parser.py` (the `Message` record and mojibake repair), `text.py`
(tokenization, phrase filtering, the heuristic sentiment score),
`metrics.py` (the metrics aggregation engine) and `report.py`
(the vibe-radar computation), and proves or refutes the frozen
specification claims about them.

Modelling conventions:
* Python strings are Lean `String`s (or `List Nat` codepoint lists where
  byte-level encoding is at stake, in the mojibake section).
* Python floats are modelled as exact rationals `ℚ` for the arithmetic
  the claims quantify over, and as reals `ℝ` where `math.tanh` /
  `math.sqrt` appear.
* Python dicts / `collections.Counter` are association lists kept in key
  first-insertion order, mirroring CPython's insertion-ordered dicts.
* `datetime.fromtimestamp(ts / 1000, tz)` field access is modelled by a
  `Tz` record of functions from the epoch-millisecond timestamp to the
  local hour, weekday, month label and day label; the `zoneinfo`
  database itself is outside the repository.
* `sorted` is modelled by a stable insertion sort (`stableSortBy`);
  Python's sort is stable, and a stable sort is extensionally determined
  by its comparator.
-/

namespace MW

/-- Stable insert: the new element goes before the first list entry `b`
with `le a b`, so an element inserted into the sorted tail of its
original list ends up before later elements that compare equal. -/
def stableInsert (le : α → α → Bool) (a : α) : List α → List α
  | [] => [a]
  | b :: l => if le a b then a :: b :: l else b :: stableInsert le a l

/-- Stable ascending sort, modelling Python's stable `sorted`. -/
def stableSortBy (le : α → α → Bool) : List α → List α
  | [] => []
  | a :: l => stableInsert le a (stableSortBy le l)

/-- Update the entry at key `k` with `f`, or append `(k, v0)` if the key is
absent.  Models mutation of an insertion-ordered Python dict / Counter. -/
def upsertWith [BEq α] (l : List (α × β)) (k : α) (f : β → β) (v0 : β) : List (α × β) :=
  match l with
  | [] => [(k, v0)]
  | (k', v') :: rest => if k' == k then (k', f v') :: rest else (k', v') :: upsertWith rest k f v0

/-- `Counter[k] += 1`. -/
def bump [BEq α] (l : List (α × Nat)) (k : α) : List (α × Nat) :=
  upsertWith l k (· + 1) 1

/-- `Counter[k] += n`. -/
def bumpBy [BEq α] (l : List (α × Nat)) (k : α) (n : Nat) : List (α × Nat) :=
  upsertWith l k (· + n) n

/-- `counter.get(k, 0)` / `counter[k]` read access. -/
def lookup0 [BEq α] (l : List (α × Nat)) (k : α) : Nat :=
  (l.lookup k).getD 0

/-- Python `max(items, key=value)`: first item with maximal value (CPython
`max` keeps the earlier item on ties). -/
def firstMaxBy [LinearOrder β] (f : α → β) (l : List α) : Option α :=
  l.foldl (fun best a =>
    match best with
    | none => some a
    | some b => if f a > f b then some a else some b) none

/-- Python `min(items, key=value)`: first item with minimal value. -/
def firstMinBy [LinearOrder β] (f : α → β) (l : List α) : Option α :=
  l.foldl (fun best a =>
    match best with
    | none => some a
    | some b => if f a < f b then some a else some b) none

/-- `Counter.most_common(n)`: stable sort by count descending, first `n`. -/
def mostCommon (l : List (α × Nat)) (n : Nat) : List (α × Nat) :=
  (stableSortBy (fun a b => decide (b.2 ≤ a.2)) l).take n

/-- `Counter.most_common()`: stable sort by count descending. -/
def mostCommonAll (l : List (α × Nat)) : List (α × Nat) :=
  stableSortBy (fun a b => decide (b.2 ≤ a.2)) l

/-! ## The canonical `Message` record (`parser.py`, dataclass `Message`) -/

/-- `parser.Message`: the canonical message record. -/
structure Message where
  sender_name : String
  timestamp_ms : Int
  content : Option String := none
  msg_type : Option String := none
  photo_count : Nat := 0
  video_count : Nat := 0
  audio_count : Nat := 0
  gif_count : Nat := 0
  file_count : Nat := 0
deriving DecidableEq, Repr

/-- Model of a `zoneinfo.ZoneInfo` timezone together with the
`datetime.fromtimestamp(ts / 1000.0, tz)` field accesses the engine
performs: local hour, weekday (Monday = 0), `"YYYY-MM"` month label and
`"%Y-%m-%d"` day label of an epoch-millisecond timestamp. -/
structure Tz where
  hourOf : Int → Fin 24
  weekdayOf : Int → Fin 7
  monthLabelOf : Int → String
  dayLabelOf : Int → String
  key : String

/-- `metrics.sort_messages`. -/
def sort_messages (messages : List Message) : List Message :=
  stableSortBy (fun a b => decide (a.timestamp_ms ≤ b.timestamp_ms)) messages

/-- `metrics.WEEKDAY_NAMES`. -/
def WEEKDAY_NAMES : List String := ["Mon", "Tue", "Wed", "Thu", "Fri", "Sat", "Sun"]

/-! ## Temporal histograms (`metrics.hourly_counts`, `metrics.weekday_counts`) -/

/-- `counts[i] += 1` on a Python list of ints. -/
def bucketInc (counts : List Nat) (i : Nat) : List Nat :=
  counts.set i (counts.getD i 0 + 1)

/-- `metrics.hourly_counts`: 24 buckets indexed by local hour. -/
def hourly_counts (messages : List Message) (tz : Tz) : List Nat :=
  messages.foldl (fun counts msg => bucketInc counts (tz.hourOf msg.timestamp_ms)) (List.replicate 24 0)

/-- `metrics.weekday_counts`: 7 buckets indexed by local weekday. -/
def weekday_counts (messages : List Message) (tz : Tz) : List Nat :=
  messages.foldl (fun counts msg => bucketInc counts (tz.weekdayOf msg.timestamp_ms)) (List.replicate 7 0)

theorem length_bucketInc (l : List Nat) (i : Nat) : (bucketInc l i).length = l.length := by
  simp [bucketInc]

theorem sum_bucketInc (l : List Nat) (i : Nat) (h : i < l.length) :
    (bucketInc l i).sum = l.sum + 1 := by
  induction l generalizing i with
  | nil => simp at h
  | cons a t ih =>
    cases i with
    | zero => simp [bucketInc, List.getD]; omega
    | succ n =>
      have h' : n < t.length := by simpa using h
      have : bucketInc (a :: t) (n + 1) = a :: bucketInc t n := by
        simp [bucketInc, List.getD]
      rw [this]
      simp [List.sum_cons, ih n h']
      omega

theorem foldBuckets_sum (g : Message → Nat) (n : Nat) (hb : ∀ m, g m < n) :
    ∀ (msgs : List Message) (acc : List Nat), acc.length = n →
      (msgs.foldl (fun c m => bucketInc c (g m)) acc).length = n ∧
      (msgs.foldl (fun c m => bucketInc c (g m)) acc).sum = acc.sum + msgs.length := by
  intro msgs
  induction msgs with
  | nil => intro acc hacc; simpa using hacc
  | cons m rest ih =>
    intro acc hacc
    have hlen : (bucketInc acc (g m)).length = n := by rw [length_bucketInc]; exact hacc
    have hsum : (bucketInc acc (g m)).sum = acc.sum + 1 := by
      apply sum_bucketInc; rw [hacc]; exact hb m
    have := ih (bucketInc acc (g m)) hlen
    refine ⟨this.1, ?_⟩
    rw [List.foldl_cons, this.2, hsum, List.length_cons]
    omega

/-- C8: for every message list and timezone, the hour-of-day histogram has
24 buckets summing to the number of messages, and the weekday histogram
has 7 buckets summing to the number of messages. -/
theorem histogram_bucket_sums (messages : List Message) (tz : Tz) :
    (hourly_counts messages tz).length = 24 ∧
    (hourly_counts messages tz).sum = messages.length ∧
    (weekday_counts messages tz).length = 7 ∧
    (weekday_counts messages tz).sum = messages.length := by
  have h24 := foldBuckets_sum (fun m => (tz.hourOf m.timestamp_ms : Nat)) 24
    (fun m => (tz.hourOf m.timestamp_ms).isLt) messages (List.replicate 24 0) (by simp)
  have h7 := foldBuckets_sum (fun m => (tz.weekdayOf m.timestamp_ms : Nat)) 7
    (fun m => (tz.weekdayOf m.timestamp_ms).isLt) messages (List.replicate 7 0) (by simp)
  refine ⟨h24.1, ?_, h7.1, ?_⟩
  · have := h24.2; simpa [hourly_counts] using this
  · have := h7.2; simpa [weekday_counts] using this

/-! ## Response-time statistics (`metrics.percentile`, `metrics.summarize_delta_list`) -/

theorem length_stableInsert (le : α → α → Bool) (a : α) (l : List α) :
    (stableInsert le a l).length = l.length + 1 := by
  induction l with
  | nil => rfl
  | cons b t ih =>
    simp only [stableInsert]
    split
    · simp
    · simp [ih]

theorem length_stableSortBy (le : α → α → Bool) (l : List α) :
    (stableSortBy le l).length = l.length := by
  induction l with
  | nil => rfl
  | cons a t ih => simp [stableSortBy, length_stableInsert, ih]

/-- `metrics.ResponseStats` (floats as exact rationals, minutes). -/
structure ResponseStats where
  count : Nat
  avg_min : Option ℚ
  median_min : Option ℚ
  p90_min : Option ℚ
  min_min : Option ℚ := none
  max_min : Option ℚ := none
deriving DecidableEq, Repr

/-- `metrics.percentile`.  `math.floor` / `math.ceil` become `Int.floor` /
`Int.ceil`; list indexing is `getD` (for the ranks `0 ≤ p ≤ 100` produces the
default is never read; outside that range CPython would raise or wrap). -/
def percentile (values : List ℚ) (p : ℚ) : Option ℚ :=
  if values = [] then none
  else if values.length = 1 then some (values.getD 0 0)
  else
    let values_sorted := stableSortBy (fun a b => decide (a ≤ b)) values
    let k : ℚ := ((values_sorted.length : ℚ) - 1) * (p / 100)
    let f : ℤ := ⌊k⌋
    let c : ℤ := ⌈k⌉
    if f = c then some (values_sorted.getD f.toNat 0)
    else some (values_sorted.getD f.toNat 0 +
      (values_sorted.getD c.toNat 0 - values_sorted.getD f.toNat 0) * (k - (f : ℚ)))

/-- `statistics.mean` (guarded by nonemptiness at every call site). -/
def listMean (l : List ℚ) : ℚ := l.sum / l.length

/-- `statistics.median`: middle of the sorted list, or the average of the two
middle elements for even length. -/
def listMedian (l : List ℚ) : ℚ :=
  let s := stableSortBy (fun a b => decide (a ≤ b)) l
  let n := l.length
  if n % 2 = 1 then s.getD (n / 2) 0
  else (s.getD (n / 2 - 1) 0 + s.getD (n / 2) 0) / 2

/-- `metrics.summarize_delta_list`. -/
def summarize_delta_list (deltas : List ℚ) : ResponseStats :=
  if deltas = [] then ⟨0, none, none, none, none, none⟩
  else
    let avg_val := listMean deltas / 60
    let median_val := listMedian deltas / 60
    let p90_val := percentile deltas 90
    let p90_min := p90_val.map (· / 60)
    let min_val := (deltas.min?.getD 0) / 60
    let max_val := (deltas.max?.getD 0) / 60
    ⟨deltas.length, some avg_val, some median_val, p90_min, some min_val, some max_val⟩

/-- The spec's independently stated linear-interpolated rank statistic: on the
ascending-sorted copy `s` of the values, rank `k = (n-1)*p/100`, result
`s[⌊k⌋] + (s[⌈k⌉] - s[⌊k⌋]) * (k - ⌊k⌋)`. -/
def rankStatistic (values : List ℚ) (p : ℚ) : ℚ :=
  let s := stableSortBy (fun a b => decide (a ≤ b)) values
  let k : ℚ := ((values.length : ℚ) - 1) * (p / 100)
  s.getD (⌊k⌋).toNat 0 + (s.getD (⌈k⌉).toNat 0 - s.getD (⌊k⌋).toNat 0) * (k - ((⌊k⌋ : ℤ) : ℚ))

/-- C4: for every non-empty value list and percentile `p`, `percentile`
returns the linear-interpolated rank statistic with rank `k = (n-1)*p/100`
interpolated between the floor and ceil ranks of the sorted list; a
single-element list short-circuits to that one value; and the response
summaries (mean, median, p90, min, max) are the seconds-valued statistics
divided by 60. -/
theorem percentile_is_rankStatistic (values : List ℚ) (p : ℚ) (hne : values ≠ [])
    (hp0 : 0 ≤ p) (hp1 : p ≤ 100) :
    percentile values p = some (rankStatistic values p) ∧
    (∀ x : ℚ, percentile [x] p = some x) ∧
    (∀ deltas : List ℚ, deltas ≠ [] →
      summarize_delta_list deltas =
        ⟨deltas.length, some (listMean deltas / 60), some (listMedian deltas / 60),
          some (rankStatistic deltas 90 / 60),
          some ((deltas.min?.getD 0) / 60), some ((deltas.max?.getD 0) / 60)⟩) := by
  have main : ∀ (vs : List ℚ) (q : ℚ), vs ≠ [] →
      percentile vs q = some (rankStatistic vs q) := by
    intro vs q hvs
    match vs with
    | [x] =>
      simp only [percentile, rankStatistic, stableSortBy, stableInsert]
      norm_num
    | a :: b :: t =>
      have hlen : (a :: b :: t).length ≠ 1 := by simp
      have hsortlen : (stableSortBy (fun x y => decide (x ≤ y)) (a :: b :: t)).length
          = (a :: b :: t).length := length_stableSortBy _ _
      simp only [percentile, rankStatistic, if_neg (by simp : ¬(a :: b :: t) = ([] : List ℚ)),
        if_neg hlen, hsortlen]
      set s := stableSortBy (fun x y => decide (x ≤ y)) (a :: b :: t) with hs
      set k : ℚ := (((a :: b :: t).length : ℚ) - 1) * (q / 100) with hk
      by_cases hfc : (⌊k⌋ : ℤ) = ⌈k⌉
      · rw [if_pos hfc]
        have hkint : ((⌊k⌋ : ℤ) : ℚ) = k :=
          le_antisymm (Int.floor_le k) (by rw [hfc]; exact Int.le_ceil k)
        rw [← hfc]
        have : k - ((⌊k⌋ : ℤ) : ℚ) = 0 := by rw [hkint]; ring
        rw [this]
        ring_nf
      · rw [if_neg hfc]
  refine ⟨main values p hne, ?_, ?_⟩
  · intro x
    simp [percentile]
  · intro deltas hd
    have hp90 := main deltas 90 hd
    simp [summarize_delta_list, if_neg hd, hp90]

/-- Witness for C4: the 5-element list `[10, 20, 30, 40, 50]` at `p = 90`;
the interpolated rank statistic there evaluates to 46. -/
theorem percentile_is_rankStatistic_witness :
    (([10, 20, 30, 40, 50] : List ℚ) ≠ []) ∧
    percentile [10, 20, 30, 40, 50] 90 = some (rankStatistic [10, 20, 30, 40, 50] 90) ∧
    rankStatistic [10, 20, 30, 40, 50] 90 = 46 := by
  have h := percentile_is_rankStatistic [10, 20, 30, 40, 50] 90 (by simp)
    (by norm_num) (by norm_num)
  refine ⟨by simp, h.1, ?_⟩
  have hc : (⌈(18 : ℚ) / 5⌉ : ℤ) = 4 := by
    rw [Int.ceil_eq_iff] <;> norm_num
  have h3 : (3 : ℤ).toNat = 3 := rfl
  have h4 : (4 : ℤ).toNat = 4 := rfl
  norm_num [rankStatistic, stableSortBy, stableInsert, List.getD, hc, h3, h4]

/-! ## Fast-reply statistics (`metrics.fast_reply_stats`) -/

/-- The result record of `metrics.fast_reply_stats` (`winner` carries the
winning sender and its percentage `ratio * 100`). -/
structure FastReplyStats where
  winner : Option (String × ℚ)
  ratios : List (String × ℚ)
  totals : List (String × Nat)
  fast_counts : List (String × Nat)
deriving DecidableEq, Repr

/-- One iteration of the pair loop in `fast_reply_stats`: the earlier sender
of the adjacent pair is counted in `totals`, and additionally in `fast` when
the immediately following message is from a different sender and arrives
within `max_seconds`. -/
def frStep (max_seconds : ℚ) (acc : List (String × Nat) × List (String × Nat))
    (pr : Message × Message) : List (String × Nat) × List (String × Nat) :=
  let totals := bump acc.1 pr.1.sender_name
  if pr.1.sender_name = pr.2.sender_name then (totals, acc.2)
  else if (((pr.2.timestamp_ms - pr.1.timestamp_ms : ℤ) : ℚ) / 1000) ≤ max_seconds then
    (totals, bump acc.2 pr.1.sender_name)
  else (totals, acc.2)

/-- The `totals` and `fast` counters after the pair loop of
`fast_reply_stats` (accumulated over adjacent pairs of the sorted list). -/
def frCounters (messages : List Message) (max_seconds : ℚ) :
    List (String × Nat) × List (String × Nat) :=
  let sorted_messages := sort_messages messages
  (sorted_messages.zip sorted_messages.tail).foldl (frStep max_seconds) ([], [])

/-- One `ratios` entry of `fast_reply_stats`:
`fast.get(sender, 0) / totals[sender] if totals[sender] else 0.0`. -/
def frRatioVal (messages : List Message) (max_seconds : ℚ) (k : String) (v : Nat) : ℚ :=
  if v = 0 then 0 else (lookup0 (frCounters messages max_seconds).2 k : ℚ) / (v : ℚ)

/-- The `ratios` dict of `fast_reply_stats`, iterated in `totals` insertion
order. -/
def frRatios (messages : List Message) (max_seconds : ℚ) : List (String × ℚ) :=
  (frCounters messages max_seconds).1.map (fun e =>
    (e.1, frRatioVal messages max_seconds e.1 e.2))

/-- `metrics.fast_reply_stats` (the Python default threshold is 300 s,
supplied explicitly at the call sites here). -/
def fast_reply_stats (messages : List Message) (max_seconds : ℚ) : FastReplyStats :=
  match firstMaxBy (fun e => e.2) (frRatios messages max_seconds) with
  | some w => ⟨some (w.1, w.2 * 100), frRatios messages max_seconds,
      (frCounters messages max_seconds).1, (frCounters messages max_seconds).2⟩
  | none => ⟨none, [], [], []⟩

/-- Number of adjacent pairs of the sorted list whose earlier message is from
`sender` (the denominator the code actually uses). -/
def pairTotal (s : List Message) (sender : String) : Nat :=
  (s.zip s.tail).countP (fun pr => pr.1.sender_name == sender)

/-- Number of `sender`'s messages immediately followed by a different-sender
reply within `max_seconds` (the numerator, as both code and claim state). -/
def pairFast (s : List Message) (max_seconds : ℚ) (sender : String) : Nat :=
  (s.zip s.tail).countP (fun pr => pr.1.sender_name == sender &&
    !(pr.1.sender_name == pr.2.sender_name) &&
    decide ((((pr.2.timestamp_ms - pr.1.timestamp_ms : ℤ) : ℚ) / 1000) ≤ max_seconds))

/-- The ratio exactly as claim C1 states it: fast replies over the sender's
TOTAL message count. -/
def claimedFastReplyRatio (messages : List Message) (max_seconds : ℚ) (sender : String) : ℚ :=
  let s := sort_messages messages
  (pairFast s max_seconds sender : ℚ) /
    (messages.countP (fun m => m.sender_name == sender) : ℚ)

theorem lookup_bump (l : List (String × Nat)) (k x : String) :
    (bump l k).lookup x = if x = k then some (lookup0 l x + 1) else l.lookup x := by
  induction l with
  | nil =>
    by_cases h : x = k
    · subst h; simp [bump, upsertWith, lookup0, List.lookup]
    · have hx : (x == k) = false := beq_eq_false_iff_ne.mpr h
      simp [bump, upsertWith, lookup0, List.lookup, hx, h]
  | cons hd tl ih =>
    obtain ⟨k', v'⟩ := hd
    by_cases hk : k' = k
    · subst hk
      by_cases hx : x = k'
      · subst hx; simp [bump, upsertWith, lookup0, List.lookup]
      · have hx' : (x == k') = false := beq_eq_false_iff_ne.mpr hx
        simp [bump, upsertWith, lookup0, List.lookup, hx', hx]
    · have hk' : (k' == k) = false := beq_eq_false_iff_ne.mpr hk
      by_cases hx : x = k'
      · have hxk : ¬ (x = k) := by rw [hx]; exact hk
        have hxq : (x == k') = true := beq_iff_eq.mpr hx
        simp [bump, upsertWith, hk', List.lookup, hxq, hxk]
      · have hx' : (x == k') = false := beq_eq_false_iff_ne.mpr hx
        simp only [bump, upsertWith, hk', Bool.false_eq_true, if_false, List.lookup, hx']
        rw [show upsertWith tl k (· + 1) 1 = bump tl k from rfl, ih]
        by_cases hxk : x = k
        · rw [if_pos hxk, if_pos hxk]
          congr 2
          simp [lookup0, List.lookup, hx']
        · rw [if_neg hxk, if_neg hxk]

theorem lookup0_bump (l : List (String × Nat)) (k x : String) :
    lookup0 (bump l k) x = lookup0 l x + (if x = k then 1 else 0) := by
  unfold lookup0
  rw [lookup_bump]
  by_cases h : x = k <;> simp [h, lookup0]

/-- After the pair loop, the `totals` and `fast` counters hold exactly the
pair counts of the matching predicates, on top of the starting accumulator. -/
theorem frFold_lookup0 (θ : ℚ) (x : String) :
    ∀ (prs : List (Message × Message)) (acc : List (String × Nat) × List (String × Nat)),
      lookup0 (prs.foldl (frStep θ) acc).1 x
          = lookup0 acc.1 x + prs.countP (fun pr => pr.1.sender_name == x) ∧
      lookup0 (prs.foldl (frStep θ) acc).2 x
          = lookup0 acc.2 x + prs.countP (fun pr => pr.1.sender_name == x &&
              !(pr.1.sender_name == pr.2.sender_name) &&
              decide ((((pr.2.timestamp_ms - pr.1.timestamp_ms : ℤ) : ℚ) / 1000) ≤ θ)) := by
  intro prs
  induction prs with
  | nil => intro acc; simp
  | cons pr rest ih =>
    intro acc
    rw [List.foldl_cons, List.countP_cons, List.countP_cons]
    have hstep := ih (frStep θ acc pr)
    have hfst : (frStep θ acc pr).1 = bump acc.1 pr.1.sender_name := by
      unfold frStep
      split
      · rfl
      · split <;> rfl
    have h1 : lookup0 (frStep θ acc pr).1 x
        = lookup0 acc.1 x + (if x = pr.1.sender_name then 1 else 0) := by
      rw [hfst, lookup0_bump]
    refine ⟨?_, ?_⟩
    · rw [hstep.1, h1]
      by_cases hx : x = pr.1.sender_name
      · have hb : (pr.1.sender_name == x) = true := beq_iff_eq.mpr hx.symm
        rw [if_pos hx, if_pos hb]
        omega
      · have hb : ¬ ((pr.1.sender_name == x) = true) := by
          rw [beq_iff_eq]; exact fun h => hx h.symm
        rw [if_neg hx, if_neg hb]
        omega
    · rw [hstep.2]
      by_cases hsame : pr.1.sender_name = pr.2.sender_name
      · have hsnd : (frStep θ acc pr).2 = acc.2 := by
          unfold frStep; rw [if_pos hsame]
        have hb : (pr.1.sender_name == pr.2.sender_name) = true := beq_iff_eq.mpr hsame
        have hcnt : ¬ ((pr.1.sender_name == x &&
            !(pr.1.sender_name == pr.2.sender_name) &&
            decide ((((pr.2.timestamp_ms - pr.1.timestamp_ms : ℤ) : ℚ) / 1000) ≤ θ)) = true) := by
          rw [hb]; simp
        rw [hsnd, if_neg hcnt]
        omega
      · have hbne : (pr.1.sender_name == pr.2.sender_name) = false :=
          beq_eq_false_iff_ne.mpr hsame
        by_cases hθ : (((pr.2.timestamp_ms - pr.1.timestamp_ms : ℤ) : ℚ) / 1000) ≤ θ
        · have hsnd : (frStep θ acc pr).2 = bump acc.2 pr.1.sender_name := by
            unfold frStep; rw [if_neg hsame, if_pos hθ]
          rw [hsnd, lookup0_bump]
          by_cases hx : x = pr.1.sender_name
          · have hb : (pr.1.sender_name == x) = true := beq_iff_eq.mpr hx.symm
            have hcnt : (pr.1.sender_name == x &&
                !(pr.1.sender_name == pr.2.sender_name) &&
                decide ((((pr.2.timestamp_ms - pr.1.timestamp_ms : ℤ) : ℚ) / 1000) ≤ θ)) = true := by
              rw [hb, hbne, decide_eq_true hθ]; rfl
            rw [if_pos hx, if_pos hcnt]
            omega
          · have hb : (pr.1.sender_name == x) = false :=
              beq_eq_false_iff_ne.mpr (fun h => hx h.symm)
            have hcnt : ¬ ((pr.1.sender_name == x &&
                !(pr.1.sender_name == pr.2.sender_name) &&
                decide ((((pr.2.timestamp_ms - pr.1.timestamp_ms : ℤ) : ℚ) / 1000) ≤ θ)) = true) := by
              rw [hb]; simp
            rw [if_neg hx, if_neg hcnt]
            omega
        · have hsnd : (frStep θ acc pr).2 = acc.2 := by
            unfold frStep; rw [if_neg hsame, if_neg hθ]
          have hcnt : ¬ ((pr.1.sender_name == x &&
              !(pr.1.sender_name == pr.2.sender_name) &&
              decide ((((pr.2.timestamp_ms - pr.1.timestamp_ms : ℤ) : ℚ) / 1000) ≤ θ)) = true) := by
            rw [decide_eq_false hθ]; simp
          rw [hsnd, if_neg hcnt]
          omega

/-- Keys never present in the accumulator nor counted stay absent. -/
theorem frFold_lookup_none (θ : ℚ) (x : String) :
    ∀ (prs : List (Message × Message)) (acc : List (String × Nat) × List (String × Nat)),
      acc.1.lookup x = none → prs.countP (fun pr => pr.1.sender_name == x) = 0 →
      (prs.foldl (frStep θ) acc).1.lookup x = none := by
  intro prs
  induction prs with
  | nil => intro acc h _; simpa using h
  | cons pr rest ih =>
    intro acc hacc hcnt
    rw [List.countP_cons] at hcnt
    have hp : (pr.1.sender_name == x) = false := by
      by_contra h
      simp only [Bool.not_eq_false] at h
      simp [h] at hcnt
    have hx : ¬ (x = pr.1.sender_name) := by
      intro h; subst h; simp at hp
    have hrest : rest.countP (fun pr => pr.1.sender_name == x) = 0 := by omega
    rw [List.foldl_cons]
    apply ih
    · have : (frStep θ acc pr).1 = bump acc.1 pr.1.sender_name := by
        unfold frStep
        split
        · rfl
        · split <;> rfl
      rw [this, lookup_bump, if_neg hx]
      exact hacc
    · exact hrest

/-- A present key is looked up as its `lookup0` count. -/
theorem lookup_eq_some_of_ne_none (l : List (String × Nat)) (x : String)
    (h : l.lookup x ≠ none) : l.lookup x = some (lookup0 l x) := by
  unfold lookup0
  cases hl : l.lookup x with
  | none => exact absurd hl h
  | some v => simp

theorem lookup_map_keyed (g : String → β → γ) (l : List (String × β)) (x : String) :
    (l.map (fun e => (e.1, g e.1 e.2))).lookup x = (l.lookup x).map (g x) := by
  induction l with
  | nil => rfl
  | cons hd tl ih =>
    obtain ⟨k, v⟩ := hd
    by_cases hx : x == k
    · have : x = k := by simpa using hx
      subst this
      simp [List.lookup]
    · simp only [List.map, List.lookup, hx]
      exact ih

theorem firstMaxBy_go (f : α → β) [LinearOrder β] :
    ∀ (l : List α) (b w : α),
      l.foldl (fun best a =>
        match best with
        | none => some a
        | some b => if f a > f b then some a else some b) (some b) = some w →
      (w = b ∨ w ∈ l) ∧ f b ≤ f w ∧ ∀ e ∈ l, f e ≤ f w := by
  intro l
  induction l with
  | nil => intro b w h; simp at h; subst h; simp
  | cons a rest ih =>
    intro b w h
    rw [List.foldl_cons] at h
    by_cases hab : f a > f b
    · simp only [hab, if_true] at h
      obtain ⟨hmem, hle, hall⟩ := ih a w h
      refine ⟨?_, ?_, ?_⟩
      · rcases hmem with h1 | h1
        · right; simp [h1]
        · right; simp [h1]
      · exact le_trans (le_of_lt hab) hle
      · intro e he
        rcases List.mem_cons.mp he with h1 | h1
        · subst h1; exact hle
        · exact hall e h1
    · simp only [hab, if_false] at h
      obtain ⟨hmem, hle, hall⟩ := ih b w h
      refine ⟨?_, ?_, ?_⟩
      · rcases hmem with h1 | h1
        · left; exact h1
        · right; simp [h1]
      · exact hle
      · intro e he
        rcases List.mem_cons.mp he with h1 | h1
        · subst h1; exact le_trans (le_of_not_lt hab) hle
        · exact hall e h1

/-- `firstMaxBy` returns a member whose value is maximal. -/
theorem firstMaxBy_spec (f : α → β) [LinearOrder β] (l : List α) (w : α)
    (h : firstMaxBy f l = some w) : w ∈ l ∧ ∀ e ∈ l, f e ≤ f w := by
  unfold firstMaxBy at h
  cases l with
  | nil => simp at h
  | cons a rest =>
    rw [List.foldl_cons] at h
    obtain ⟨hmem, _, hall⟩ := firstMaxBy_go f rest a w h
    refine ⟨?_, ?_⟩
    · rcases hmem with h1 | h1
      · simp [h1]
      · simp [h1]
    · intro e he
      rcases List.mem_cons.mp he with h1 | h1
      · obtain ⟨_, hle, _⟩ := firstMaxBy_go f rest a w h
        exact h1 ▸ hle
      · exact hall e h1

theorem firstMaxBy_ne_none (f : α → β) [LinearOrder β] (a : α) (l : List α) :
    firstMaxBy f (a :: l) ≠ none := by
  unfold firstMaxBy
  rw [List.foldl_cons]
  have : ∀ (l' : List α) (b : α),
      l'.foldl (fun best x =>
        match best with
        | none => some x
        | some b => if f x > f b then some x else some b) (some b) ≠ none := by
    intro l'
    induction l' with
    | nil => intro b; simp
    | cons x rest ih =>
      intro b
      rw [List.foldl_cons]
      by_cases hx : f x > f b
      · simp only [hx, if_true]; exact ih x
      · simp only [hx, if_false]; exact ih b
  exact this l a

theorem frCounters_lookup0 (messages : List Message) (θ : ℚ) (x : String) :
    lookup0 (frCounters messages θ).1 x = pairTotal (sort_messages messages) x ∧
    lookup0 (frCounters messages θ).2 x = pairFast (sort_messages messages) θ x := by
  unfold frCounters pairTotal pairFast
  have h := frFold_lookup0 θ x
    ((sort_messages messages).zip (sort_messages messages).tail) ([], [])
  simpa [lookup0] using h

/-- C1 (amended): for every message list, threshold and sender that appears as
the earlier message of at least one adjacent pair, `fast_reply_stats` reports
the ratio (messages followed within the threshold by a different-sender
reply) / (messages having an immediate successor) — the denominator counts
the sender's appearances as the earlier element of an adjacent pair of the
sorted list, not the sender's total message count — and the reported winner
is an entry of the ratio table with maximal ratio, scaled by 100. -/
theorem fast_reply_ratio_and_winner (messages : List Message) (θ : ℚ) (sender : String)
    (h : pairTotal (sort_messages messages) sender ≠ 0) :
    (fast_reply_stats messages θ).ratios.lookup sender =
      some ((pairFast (sort_messages messages) θ sender : ℚ) /
        (pairTotal (sort_messages messages) sender : ℚ)) ∧
    ∀ w, (fast_reply_stats messages θ).winner = some w →
      ∃ e ∈ (fast_reply_stats messages θ).ratios, w = (e.1, e.2 * 100) ∧
        ∀ e' ∈ (fast_reply_stats messages θ).ratios, e'.2 ≤ e.2 := by
  have hc := frCounters_lookup0 messages θ sender
  have hne : (frCounters messages θ).1.lookup sender ≠ none := by
    intro hnone
    apply h
    rw [← hc.1]
    simp [lookup0, hnone]
  have hlk : (frCounters messages θ).1.lookup sender
      = some (pairTotal (sort_messages messages) sender) := by
    rw [lookup_eq_some_of_ne_none _ _ hne, hc.1]
  have hr : (frRatios messages θ).lookup sender =
      some ((pairFast (sort_messages messages) θ sender : ℚ) /
        (pairTotal (sort_messages messages) sender : ℚ)) := by
    unfold frRatios
    rw [lookup_map_keyed (frRatioVal messages θ) _ sender, hlk]
    simp only [Option.map_some']
    unfold frRatioVal
    rw [if_neg h, hc.2]
  cases hl : frRatios messages θ with
  | nil => rw [hl] at hr; simp [List.lookup] at hr
  | cons a t =>
    cases hfm : firstMaxBy (fun e : String × ℚ => e.2) (a :: t) with
    | none => exact absurd hfm (firstMaxBy_ne_none _ a t)
    | some w0 =>
      have hstats : fast_reply_stats messages θ = ⟨some (w0.1, w0.2 * 100), a :: t,
          (frCounters messages θ).1, (frCounters messages θ).2⟩ := by
        unfold fast_reply_stats
        rw [hl, hfm]
      constructor
      · rw [hstats, ← hl]
        exact hr
      · intro w hw
        rw [hstats] at hw
        simp only at hw
        obtain ⟨hwmem, hmax⟩ := firstMaxBy_spec (fun e : String × ℚ => e.2) (a :: t) w0 hfm
        refine ⟨w0, ?_, ?_, ?_⟩
        · rw [hstats]; exact hwmem
        · cases hw; rfl
        · intro e' he'
          rw [hstats] at he'
          exact hmax e' he'

/-- Counterexample to C1 as stated: with messages A at 0 s, B at 100 s and
A at 200 s (all within the 300 s threshold), the code reports ratio 1 for A
(1 fast reply out of 1 adjacent-pair appearance), while the claim's
ratio — fast replies over A's total message count 2 — is 1/2. -/
theorem fast_reply_claim_counterexample :
    (fast_reply_stats
      [⟨"A", 0, none, none, 0, 0, 0, 0, 0⟩,
       ⟨"B", 100000, none, none, 0, 0, 0, 0, 0⟩,
       ⟨"A", 200000, none, none, 0, 0, 0, 0, 0⟩] 300).ratios.lookup "A" = some 1 ∧
    claimedFastReplyRatio
      [⟨"A", 0, none, none, 0, 0, 0, 0, 0⟩,
       ⟨"B", 100000, none, none, 0, 0, 0, 0, 0⟩,
       ⟨"A", 200000, none, none, 0, 0, 0, 0, 0⟩] 300 "A" = 1 / 2 ∧
    (1 : ℚ) ≠ 1 / 2 := by
  have hq1 : ((100000 : ℚ) / 1000 ≤ 300) := by norm_num
  refine ⟨?_, ?_, by norm_num⟩
  · simp +decide [fast_reply_stats, frRatios, frRatioVal, frCounters, sort_messages,
      stableSortBy, stableInsert, frStep, bump, upsertWith, lookup0, firstMaxBy,
      List.lookup, hq1]
  · simp +decide [claimedFastReplyRatio, pairFast, pairTotal, sort_messages,
      stableSortBy, stableInsert, List.countP, List.countP.go, hq1]

/-- Witness for C1 (amended) at messages A at 0 s, B at 100 s, A at 200 s,
sender "A". -/
theorem fast_reply_ratio_and_winner_witness :
    pairTotal (sort_messages
      [⟨"A", 0, none, none, 0, 0, 0, 0, 0⟩,
       ⟨"B", 100000, none, none, 0, 0, 0, 0, 0⟩,
       ⟨"A", 200000, none, none, 0, 0, 0, 0, 0⟩]) "A" ≠ 0 ∧
    ((fast_reply_stats
      [⟨"A", 0, none, none, 0, 0, 0, 0, 0⟩,
       ⟨"B", 100000, none, none, 0, 0, 0, 0, 0⟩,
       ⟨"A", 200000, none, none, 0, 0, 0, 0, 0⟩] 300).ratios.lookup "A" =
      some ((pairFast (sort_messages
        [⟨"A", 0, none, none, 0, 0, 0, 0, 0⟩,
         ⟨"B", 100000, none, none, 0, 0, 0, 0, 0⟩,
         ⟨"A", 200000, none, none, 0, 0, 0, 0, 0⟩]) 300 "A" : ℚ) /
        (pairTotal (sort_messages
        [⟨"A", 0, none, none, 0, 0, 0, 0, 0⟩,
         ⟨"B", 100000, none, none, 0, 0, 0, 0, 0⟩,
         ⟨"A", 200000, none, none, 0, 0, 0, 0, 0⟩]) "A" : ℚ)) ∧
     ∀ w, (fast_reply_stats
      [⟨"A", 0, none, none, 0, 0, 0, 0, 0⟩,
       ⟨"B", 100000, none, none, 0, 0, 0, 0, 0⟩,
       ⟨"A", 200000, none, none, 0, 0, 0, 0, 0⟩] 300).winner = some w →
      ∃ e ∈ (fast_reply_stats
        [⟨"A", 0, none, none, 0, 0, 0, 0, 0⟩,
         ⟨"B", 100000, none, none, 0, 0, 0, 0, 0⟩,
         ⟨"A", 200000, none, none, 0, 0, 0, 0, 0⟩] 300).ratios, w = (e.1, e.2 * 100) ∧
        ∀ e' ∈ (fast_reply_stats
          [⟨"A", 0, none, none, 0, 0, 0, 0, 0⟩,
           ⟨"B", 100000, none, none, 0, 0, 0, 0, 0⟩,
           ⟨"A", 200000, none, none, 0, 0, 0, 0, 0⟩] 300).ratios, e'.2 ≤ e.2) := by
  have hden : pairTotal (sort_messages
      [⟨"A", 0, none, none, 0, 0, 0, 0, 0⟩,
       ⟨"B", 100000, none, none, 0, 0, 0, 0, 0⟩,
       ⟨"A", 200000, none, none, 0, 0, 0, 0, 0⟩]) "A" ≠ 0 := by
    norm_num [pairTotal, sort_messages, stableSortBy, stableInsert]
  exact ⟨hden, fast_reply_ratio_and_winner _ 300 "A" hden⟩

/-! ## Mojibake repair (`parser.maybe_fix_mojibake`), over codepoint lists -/

/-- A Python `str` as its list of Unicode codepoints (byte strings are lists
of byte values below 256). -/
abbrev PyStr := List Nat

/-- `parser._MOJIBAKE_MARKERS` (every marker is a single character). -/
def MOJIBAKE_MARKERS : List Nat := [0xC3, 0xC5, 0xC2, 0xD0, 0xD1, 0xE2, 0x201A, 0xFFFD]

/-- `sum(text.count(marker) for marker in _MOJIBAKE_MARKERS)`: for
single-character markers this is the number of marker characters in the
text, and it is zero exactly when no marker occurs in the text. -/
def countMarkers (t : PyStr) : Nat := t.countP (fun c => MOJIBAKE_MARKERS.contains c)

/-- `str.encode("latin-1")`: identity on codepoints below 256, raises
otherwise. -/
def latin1Encode : PyStr → Option (List Nat)
  | [] => some []
  | c :: rest => if c < 256 then (latin1Encode rest).map (c :: ·) else none

/-- One character of `str.encode("cp1252")` under Python's `cp1252` codec:
ASCII and `U+00A0`-`U+00FF` map to themselves, the Windows-1252 specials map
into `0x80`-`0x9F`, the five unassigned bytes round-trip as `U+0081`,
`U+008D`, `U+008F`, `U+0090`, `U+009D`, and everything else raises. -/
def cp1252EncodeChar (c : Nat) : Option Nat :=
  if c < 0x80 then some c
  else if 0xA0 ≤ c ∧ c ≤ 0xFF then some c
  else if c = 0x20AC then some 0x80
  else if c = 0x81 then some 0x81
  else if c = 0x201A then some 0x82
  else if c = 0x192 then some 0x83
  else if c = 0x201E then some 0x84
  else if c = 0x2026 then some 0x85
  else if c = 0x2020 then some 0x86
  else if c = 0x2021 then some 0x87
  else if c = 0x2C6 then some 0x88
  else if c = 0x2030 then some 0x89
  else if c = 0x160 then some 0x8A
  else if c = 0x2039 then some 0x8B
  else if c = 0x152 then some 0x8C
  else if c = 0x8D then some 0x8D
  else if c = 0x17D then some 0x8E
  else if c = 0x8F then some 0x8F
  else if c = 0x90 then some 0x90
  else if c = 0x2018 then some 0x91
  else if c = 0x2019 then some 0x92
  else if c = 0x201C then some 0x93
  else if c = 0x201D then some 0x94
  else if c = 0x2022 then some 0x95
  else if c = 0x2013 then some 0x96
  else if c = 0x2014 then some 0x97
  else if c = 0x2DC then some 0x98
  else if c = 0x2122 then some 0x99
  else if c = 0x161 then some 0x9A
  else if c = 0x203A then some 0x9B
  else if c = 0x153 then some 0x9C
  else if c = 0x9D then some 0x9D
  else if c = 0x17E then some 0x9E
  else if c = 0x178 then some 0x9F
  else none

/-- `str.encode("cp1252")`. -/
def cp1252Encode : PyStr → Option (List Nat)
  | [] => some []
  | c :: rest =>
    match cp1252EncodeChar c with
    | some b => (cp1252Encode rest).map (b :: ·)
    | none => none

/-- UTF-8 encoding of one Unicode scalar; Python's `str.encode("utf-8")`
raises on surrogates. -/
def utf8EncodeChar (c : Nat) : Option (List Nat) :=
  if c < 0x80 then some [c]
  else if c < 0x800 then some [0xC0 + c / 64, 0x80 + c % 64]
  else if c < 0x10000 then
    if 0xD800 ≤ c ∧ c ≤ 0xDFFF then none
    else some [0xE0 + c / 4096, 0x80 + c / 64 % 64, 0x80 + c % 64]
  else if c < 0x110000 then
    some [0xF0 + c / 262144, 0x80 + c / 4096 % 64, 0x80 + c / 64 % 64, 0x80 + c % 64]
  else none

/-- `str.encode("utf-8")`. -/
def utf8Encode : PyStr → Option (List Nat)
  | [] => some []
  | c :: rest =>
    match utf8EncodeChar c, utf8Encode rest with
    | some bs, some rest' => some (bs ++ rest')
    | _, _ => none

/-- Strict UTF-8 decoding of one scalar from the front of a byte list,
rejecting truncated and overlong forms, surrogates and out-of-range values,
as Python's `bytes.decode("utf-8")` does. -/
def utf8DecodeOne (bs : List Nat) : Option (Nat × List Nat) :=
  match bs with
  | [] => none
  | b0 :: rest =>
    if b0 < 0x80 then some (b0, rest)
    else if b0 < 0xC0 then none
    else if b0 < 0xE0 then
      match rest with
      | b1 :: rest' =>
        if 0x80 ≤ b1 ∧ b1 < 0xC0 then
          if 0x80 ≤ (b0 - 0xC0) * 64 + (b1 - 0x80) then
            some ((b0 - 0xC0) * 64 + (b1 - 0x80), rest')
          else none
        else none
      | [] => none
    else if b0 < 0xF0 then
      match rest with
      | b1 :: b2 :: rest' =>
        if (0x80 ≤ b1 ∧ b1 < 0xC0) ∧ (0x80 ≤ b2 ∧ b2 < 0xC0) then
          if 0x800 ≤ (b0 - 0xE0) * 4096 + (b1 - 0x80) * 64 + (b2 - 0x80) ∧
              ¬(0xD800 ≤ (b0 - 0xE0) * 4096 + (b1 - 0x80) * 64 + (b2 - 0x80) ∧
                (b0 - 0xE0) * 4096 + (b1 - 0x80) * 64 + (b2 - 0x80) ≤ 0xDFFF) then
            some ((b0 - 0xE0) * 4096 + (b1 - 0x80) * 64 + (b2 - 0x80), rest')
          else none
        else none
      | _ => none
    else if b0 < 0xF8 then
      match rest with
      | b1 :: b2 :: b3 :: rest' =>
        if (0x80 ≤ b1 ∧ b1 < 0xC0) ∧ (0x80 ≤ b2 ∧ b2 < 0xC0) ∧ (0x80 ≤ b3 ∧ b3 < 0xC0) then
          if 0x10000 ≤ (b0 - 0xF0) * 262144 + (b1 - 0x80) * 4096 + (b2 - 0x80) * 64 + (b3 - 0x80) ∧
              (b0 - 0xF0) * 262144 + (b1 - 0x80) * 4096 + (b2 - 0x80) * 64 + (b3 - 0x80) < 0x110000 then
            some ((b0 - 0xF0) * 262144 + (b1 - 0x80) * 4096 + (b2 - 0x80) * 64 + (b3 - 0x80), rest')
          else none
        else none
      | _ => none
    else none

/-- Fuelled UTF-8 decoding loop (each successful step consumes at least one
byte, so fuel equal to the byte count always suffices). -/
def utf8DecodeAux : Nat → List Nat → Option PyStr
  | _, [] => some []
  | 0, _ :: _ => none
  | fuel + 1, b :: bs =>
    match utf8DecodeOne (b :: bs) with
    | none => none
    | some (c, rest) => (utf8DecodeAux fuel rest).map (c :: ·)

/-- `bytes.decode("utf-8")`. -/
def utf8Decode (bs : List Nat) : Option PyStr :=
  utf8DecodeAux bs.length bs

/-- `parser.maybe_fix_mojibake` on codepoint lists; the
`for encoding in ("latin-1", "cp1252")` loop is unrolled, a candidate
replacing the current best only when strictly fewer markers remain, and a
`UnicodeError` from either `encode` or `decode` skips that candidate. -/
def maybe_fix_mojibake (text : PyStr) : PyStr :=
  if countMarkers text = 0 then text
  else
    let best0 := (text, countMarkers text)
    let best1 := match (latin1Encode text).bind utf8Decode with
      | some candidate =>
        if countMarkers candidate < best0.2 then (candidate, countMarkers candidate) else best0
      | none => best0
    let best2 := match (cp1252Encode text).bind utf8Decode with
      | some candidate =>
        if countMarkers candidate < best1.2 then (candidate, countMarkers candidate) else best1
      | none => best1
    best2.1

theorem utf8EncodeChar_bytes_lt (c : Nat) (bs : List Nat) (h : utf8EncodeChar c = some bs) :
    ∀ b ∈ bs, b < 256 := by
  unfold utf8EncodeChar at h
  split_ifs at h with h1 h2 h3 h4 h5
  · cases h
    intro b hb
    simp at hb
    omega
  · cases h
    intro b hb
    simp at hb
    rcases hb with hb | hb <;> omega
  · cases h
    intro b hb
    simp at hb
    rcases hb with hb | hb | hb <;> omega
  · cases h
    intro b hb
    simp at hb
    rcases hb with hb | hb | hb | hb <;> omega

theorem utf8Encode_bytes_lt : ∀ (s : PyStr) (bs : List Nat), utf8Encode s = some bs →
    ∀ b ∈ bs, b < 256 := by
  intro s
  induction s with
  | nil => intro bs h; cases h; intro b hb; cases hb
  | cons c rest ih =>
    intro bs h
    unfold utf8Encode at h
    cases hec : utf8EncodeChar c with
    | none => rw [hec] at h; cases h
    | some ebs =>
      cases her : utf8Encode rest with
      | none => rw [hec, her] at h; cases h
      | some rbs =>
        rw [hec, her] at h
        cases h
        intro b hb
        rcases List.mem_append.mp hb with hb | hb
        · exact utf8EncodeChar_bytes_lt c ebs hec b hb
        · exact ih rbs her b hb

theorem latin1Encode_self (bs : List Nat) (h : ∀ b ∈ bs, b < 256) :
    latin1Encode bs = some bs := by
  induction bs with
  | nil => rfl
  | cons b rest ih =>
    have hb : b < 256 := h b (by simp)
    have hrest := ih (fun x hx => h x (by simp [hx]))
    simp [latin1Encode, hb, hrest]

theorem utf8DecodeOne_encodeChar (c : Nat) (ebs : List Nat) (tail : List Nat)
    (h : utf8EncodeChar c = some ebs) :
    utf8DecodeOne (ebs ++ tail) = some (c, tail) := by
  unfold utf8EncodeChar at h
  split_ifs at h with h1 h2 h3 h4 h5
  · cases h
    simp only [List.cons_append, List.nil_append, utf8DecodeOne]
    rw [if_pos h1]
  · cases h
    simp only [List.cons_append, List.nil_append, utf8DecodeOne]
    rw [if_neg (by omega), if_neg (by omega), if_pos (by omega), if_pos (by omega),
      if_pos (by omega)]
    have hc : (0xC0 + c / 64 - 0xC0) * 64 + (0x80 + c % 64 - 0x80) = c := by omega
    rw [hc]
  · cases h
    simp only [List.cons_append, List.nil_append, utf8DecodeOne]
    rw [if_neg (by omega), if_neg (by omega), if_neg (by omega), if_pos (by omega),
      if_pos (by omega)]
    have hc : (0xE0 + c / 4096 - 0xE0) * 4096 + (0x80 + c / 64 % 64 - 0x80) * 64 +
        (0x80 + c % 64 - 0x80) = c := by omega
    rw [hc, if_pos (by omega)]
  · cases h
    simp only [List.cons_append, List.nil_append, utf8DecodeOne]
    rw [if_neg (by omega), if_neg (by omega), if_neg (by omega), if_neg (by omega),
      if_pos (by omega), if_pos (by omega)]
    have hc : (0xF0 + c / 262144 - 0xF0) * 262144 + (0x80 + c / 4096 % 64 - 0x80) * 4096 +
        (0x80 + c / 64 % 64 - 0x80) * 64 + (0x80 + c % 64 - 0x80) = c := by omega
    rw [hc, if_pos (by omega)]

theorem utf8EncodeChar_ne_nil (c : Nat) (ebs : List Nat) (h : utf8EncodeChar c = some ebs) :
    ebs ≠ [] := by
  unfold utf8EncodeChar at h
  split_ifs at h <;> first
  | (cases h; simp)
  | cases h

/-- UTF-8 decoding is a left inverse of UTF-8 encoding. -/
theorem utf8DecodeAux_encode : ∀ (s : PyStr) (bs : List Nat) (fuel : Nat),
    utf8Encode s = some bs → bs.length ≤ fuel → utf8DecodeAux fuel bs = some s := by
  intro s
  induction s with
  | nil =>
    intro bs fuel h _
    cases h
    cases fuel <;> rfl
  | cons c rest ih =>
    intro bs fuel h hfuel
    unfold utf8Encode at h
    cases hec : utf8EncodeChar c with
    | none => rw [hec] at h; cases h
    | some ebs =>
      cases her : utf8Encode rest with
      | none => rw [hec, her] at h; cases h
      | some rbs =>
        rw [hec, her] at h
        cases h
        have hnil := utf8EncodeChar_ne_nil c ebs hec
        have hone := utf8DecodeOne_encodeChar c ebs rbs hec
        obtain ⟨e0, etail, rfl⟩ : ∃ e0 etail, ebs = e0 :: etail := by
          cases ebs with
          | nil => exact absurd rfl hnil
          | cons e0 etail => exact ⟨e0, etail, rfl⟩
        have hlen : (e0 :: (etail ++ rbs)).length ≤ fuel := by
          simpa using hfuel
        cases fuel with
        | zero => simp at hlen
        | succ f =>
          have hr : utf8DecodeAux f rbs = some rest := by
            apply ih rbs f her
            simp [List.length_append] at hlen
            omega
          have hone' : utf8DecodeOne (e0 :: (etail ++ rbs)) = some (c, rbs) := by
            simpa using hone
          have hgoal : utf8DecodeAux (f + 1) ((e0 :: etail) ++ rbs)
              = utf8DecodeAux (f + 1) (e0 :: (etail ++ rbs)) := by
            simp
          rw [hgoal]
          simp only [utf8DecodeAux, hone', hr, Option.map_some']

theorem utf8Decode_encode (s : PyStr) (bs : List Nat) (h : utf8Encode s = some bs) :
    utf8Decode bs = some s :=
  utf8DecodeAux_encode s bs bs.length h le_rfl

/-- C2 (amended): mojibake repair leaves marker-free strings unchanged (and
is therefore idempotent whenever its result is marker-free), and it is exact
on a single round of Latin-1 mis-decoding provided the corrupted string
contains at least one marker character and the original contains none. -/
theorem maybe_fix_mojibake_amended :
    (∀ t : PyStr, countMarkers t = 0 → maybe_fix_mojibake t = t) ∧
    (∀ t : PyStr, countMarkers (maybe_fix_mojibake t) = 0 →
      maybe_fix_mojibake (maybe_fix_mojibake t) = maybe_fix_mojibake t) ∧
    (∀ (s bs : PyStr), utf8Encode s = some bs → countMarkers s = 0 → countMarkers bs ≠ 0 →
      maybe_fix_mojibake bs = s) := by
  have hfix : ∀ t : PyStr, countMarkers t = 0 → maybe_fix_mojibake t = t := by
    intro t ht
    unfold maybe_fix_mojibake
    rw [if_pos ht]
  refine ⟨hfix, fun t ht => hfix _ ht, ?_⟩
  intro s bs henc hs hbs
  have hbytes : ∀ b ∈ bs, b < 256 := utf8Encode_bytes_lt s bs henc
  have hlat : latin1Encode bs = some bs := latin1Encode_self bs hbytes
  have hdec : utf8Decode bs = some s := utf8Decode_encode s bs henc
  unfold maybe_fix_mojibake
  rw [if_neg hbs]
  have hb1 : (latin1Encode bs).bind utf8Decode = some s := by
    rw [hlat]
    simpa using hdec
  simp only [hb1]
  rw [if_pos (by omega)]
  cases hcp : (cp1252Encode bs).bind utf8Decode with
  | none => simp [hcp]
  | some candidate => simp [hcp, hs]

/-- Counterexample to C2 as stated: repair is not idempotent — on the
double-mis-decoding of "ó" (codepoints `[0xC3, 0x83, 0xC2, 0xB3]`) one
application yields `[0xC3, 0xB3]` and a second application yields `[0xF3]` —
and it is not exact: the Latin-1 mis-decoding `[0xC4, 0x80]` of "Ā"
(`U+0100`) contains no marker character, so repair returns it unchanged
instead of restoring `[0x100]`. -/
theorem maybe_fix_mojibake_counterexample :
    maybe_fix_mojibake (maybe_fix_mojibake [0xC3, 0x83, 0xC2, 0xB3]) ≠
      maybe_fix_mojibake [0xC3, 0x83, 0xC2, 0xB3] ∧
    utf8Encode [0x100] = some [0xC4, 0x80] ∧
    maybe_fix_mojibake [0xC4, 0x80] ≠ [0x100] := by
  refine ⟨?_, ?_, ?_⟩ <;> decide

/-- Witness for C2 (amended): marker-free strings pass through unchanged,
and the mis-decoding `[0xC3, 0xB3]` of "ó" (`U+00F3`) is repaired exactly. -/
theorem maybe_fix_mojibake_amended_witness :
    countMarkers [0x41] = 0 ∧ maybe_fix_mojibake [0x41] = [0x41] ∧
    utf8Encode [0xF3] = some [0xC3, 0xB3] ∧ countMarkers [0xF3] = 0 ∧
    countMarkers [0xC3, 0xB3] ≠ 0 ∧
    maybe_fix_mojibake [0xC3, 0xB3] = [0xF3] :=
  ⟨by decide, maybe_fix_mojibake_amended.1 [0x41] (by decide), by decide, by decide, by decide,
    maybe_fix_mojibake_amended.2.2 [0xF3] [0xC3, 0xB3] (by decide) (by decide) (by decide)⟩

/-! ## Text analysis (`text.py`): stopwords, normalization, phrase filter -/

/-- `text.VOWELS` (`set("aeiouy")`). -/
def VOWELS : List Char := ['a', 'e', 'i', 'o', 'u', 'y']

/-- `text.STOPWORDS`, in source order (the Python set collapses the few
duplicated entries; list membership is equivalent). -/
def STOPWORDS : List String :=
  ["a", "an", "and", "are", "as", "at", "be", "been", "but", "by", "do", "for",
   "from", "had", "has", "have", "he", "her", "his", "how", "i", "if", "in",
   "is", "it", "its", "me", "my", "no", "not", "of", "on", "or", "our", "out",
   "she", "so", "that", "the", "their", "them", "then", "there", "they",
   "this", "to", "up", "us", "was", "we", "were", "what", "when", "where",
   "who", "why", "with", "you", "your", "w", "z", "na", "do", "po", "od",
   "za", "pod", "nad", "przy", "bez", "dla", "jak", "nie", "tak", "ze", "co",
   "czy", "ja", "ty", "on", "ona", "ono", "my", "wy", "oni", "one", "jest",
   "sa", "byc", "sie", "tez", "albo", "o", "u", "ale", "ej", "aha", "mhm",
   "bo", "to", "ten", "ta", "te", "tu", "tam", "juz", "jeszcze", "nic",
   "wszystko", "bardzo", "tylko", "wiec", "skoro", "czyli", "i", "oraz",
   "lub", "badz", "no", "ok", "dobra", "wlasnie", "gdzie", "kiedy", "kto",
   "ile", "czemu", "dlaczego", "bo", "choc", "mimo", "lecz", "aby", "zeby",
   "gdy", "gdyby", "jesli", "jezeli", "chyba", "moze", "wiem", "sobie", "mi",
   "mu", "jej", "nam", "wam", "im", "go", "ja", "nas", "was", "ich", "cie",
   "mnie", "tobie", "io", "ii", "iii", "iv", "vi", "vii", "viii", "ix", "xx"]

/-- The `_DIACRITIC_MAP` translation table of `text.py` / `parser.py`. -/
def diacriticChar (c : Char) : Char :=
  if c = 'ą' then 'a'
  else if c = 'ć' then 'c'
  else if c = 'ę' then 'e'
  else if c = 'ł' then 'l'
  else if c = 'ń' then 'n'
  else if c = 'ó' then 'o'
  else if c = 'ś' then 's'
  else if c = 'ż' then 'z'
  else if c = 'ź' then 'z'
  else c

/-- `unicodedata.combining(ch) != 0`, modelled for the combining-diacritics
block `U+0300`-`U+036F` (the marks NFKD produces for Latin letters). -/
def isCombining (c : Char) : Bool := decide (0x300 ≤ c.toNat ∧ c.toNat ≤ 0x36F)

/-- `text.normalize_token` (and `parser.normalize_for_match`): casefold —
modelled by `Char.toLower`, which agrees with Python on the caseable
repertoire handled here — then the diacritic map, then Unicode
decomposition with combining marks dropped (decomposition of precomposed
letters beyond the explicit diacritic table is not modelled; none of the
theorems below depend on it). -/
def normalize_token (token : String) : String :=
  ⟨((token.toList.map Char.toLower).map diacriticChar).filter (fun c => !(isCombining c))⟩

/-- Python whitespace for `str.split()` / `\s`. -/
def isPySpace (c : Char) : Bool :=
  c = ' ' ∨ c = '\t' ∨ c = '\n' ∨ c = '\r' ∨ c = '\x0b' ∨ c = '\x0c'

/-- Helper loop for `str.split()` (split on whitespace runs, no empties). -/
def splitWsAux : List Char → List Char → List String
  | [], cur => if cur = [] then [] else [⟨cur.reverse⟩]
  | c :: rest, cur =>
    if isPySpace c then
      if cur = [] then splitWsAux rest []
      else ⟨cur.reverse⟩ :: splitWsAux rest []
    else splitWsAux rest (c :: cur)

/-- Python `str.split()` with no separator argument. -/
def splitWs (s : String) : List String := splitWsAux s.toList []

/-- `has_vowel` inside `text.is_meaningful_phrase`. -/
def has_vowel (token : String) : Bool := token.toList.any (fun ch => VOWELS.contains ch)

/-- `has_consonant` inside `text.is_meaningful_phrase` (`ch.isalpha() and ch
not in VOWELS`). -/
def has_consonant (token : String) : Bool :=
  token.toList.any (fun ch => ch.isAlpha ∧ ¬ (VOWELS.contains ch = true))

/-- `is_noise_token` inside `text.is_meaningful_phrase`: length ≤ 2, or
`len(set(token)) == 1` with length ≥ 3, or length ≤ 3 lacking a vowel or a
consonant. -/
def is_noise_token (token : String) : Bool :=
  if token.length ≤ 2 then true
  else if 3 ≤ token.length ∧ token.toList.all (fun c => token.toList.headD 'a' = c) then true
  else if token.length ≤ 3 then (!(has_vowel token) || !(has_consonant token))
  else false

/-- `is_stop` inside `text.is_meaningful_phrase`:
`normalize_token(w) in STOPWORDS`. -/
def isStop (w : String) : Bool := STOPWORDS.contains (normalize_token w)

/-- `text.is_meaningful_phrase`. -/
def is_meaningful_phrase (phrase : String) : Bool :=
  let words := splitWs phrase
  if words = [] then false
  else if (words.map normalize_token).all (fun w => w.length ≤ 2) then false
  else if !(words.any (fun w => !(isStop w))) then false
  else
    let content_tokens := (words.filter (fun w => !(isStop w))).map normalize_token
    if content_tokens = [] then false
    else if content_tokens.all is_noise_token then false
    else if !(content_tokens.any (fun t =>
        decide (3 ≤ t.length) && has_vowel t && has_consonant t)) then false
    else if (splitWs phrase).length = 2 ∧ isStop ((splitWs phrase).getLastD "") then false
    else true

/-- The noise notion exactly as claim C5 words it: length at most 2, or 3 or
more identical repeated characters, or lacking either a vowel or a consonant
(the code additionally guards the vowel/consonant test by `length ≤ 3`). -/
def claimNoise (t : String) : Bool :=
  decide (t.length ≤ 2) ||
  (decide (3 ≤ t.length) && t.toList.all (fun c => t.toList.headD 'a' = c)) ||
  !(has_vowel t) || !(has_consonant t)

/-- A "content word" in the sense of claim C5: not a stopword, and its
normalized form has length at least 3 with both a vowel and a consonant. -/
def contentWord (w : String) : Bool :=
  !(isStop w) && decide (3 ≤ (normalize_token w).length) &&
    has_vowel (normalize_token w) && has_consonant (normalize_token w)

theorem all_same_not_vowel_consonant (t : String)
    (hall : t.toList.all (fun c => t.toList.headD 'a' = c) = true)
    (hv : has_vowel t = true) (hc : has_consonant t = true) : False := by
  rw [List.all_eq_true] at hall
  unfold has_vowel at hv
  unfold has_consonant at hc
  rw [List.any_eq_true] at hv hc
  obtain ⟨cv, hcvmem, hcv⟩ := hv
  obtain ⟨cc, hccmem, hcc⟩ := hc
  have h1 : t.toList.headD 'a' = cv := by simpa using hall cv hcvmem
  have h2 : t.toList.headD 'a' = cc := by simpa using hall cc hccmem
  have heq : cv = cc := by rw [← h1, ← h2]
  simp only [decide_eq_true_eq] at hcc
  rw [heq] at hcv
  exact hcc.2 hcv

theorem claimNoise_not_content (t : String) (h : claimNoise t = true) :
    ¬(3 ≤ t.length ∧ has_vowel t = true ∧ has_consonant t = true) := by
  rintro ⟨hlen, hv, hc⟩
  unfold claimNoise at h
  simp only [Bool.or_eq_true, Bool.and_eq_true, decide_eq_true_eq, Bool.not_eq_true] at h
  rcases h with ((h | ⟨_, hall⟩) | h) | h
  · omega
  · exact all_same_not_vowel_consonant t (by simpa using hall) hv hc
  · rw [hv] at h; cases h
  · rw [hc] at h; cases h

theorem is_noise_token_of_content (t : String)
    (h : 3 ≤ t.length ∧ has_vowel t = true ∧ has_consonant t = true) :
    is_noise_token t = false := by
  obtain ⟨hlen, hv, hc⟩ := h
  unfold is_noise_token
  rw [if_neg (by omega)]
  rw [if_neg ?hrep]
  case hrep =>
    rintro ⟨_, hall⟩
    exact all_same_not_vowel_consonant t hall hv hc
  by_cases h3 : t.length ≤ 3
  · rw [if_pos h3, hv, hc]
    rfl
  · rw [if_neg h3]

theorem imp_false_of_no_content_token (phrase : String)
    (h : (((splitWs phrase).filter (fun w => !(isStop w))).map normalize_token).any
        (fun t => decide (3 ≤ t.length) && has_vowel t && has_consonant t) = false) :
    is_meaningful_phrase phrase = false := by
  simp only [is_meaningful_phrase]
  split_ifs with h1 h2 h3 h4 h5 h6 h7 <;> try rfl
  exfalso
  rw [Bool.not_eq_true', Bool.not_eq_false] at h6
  rw [h6] at h
  cases h

theorem imp_false_of_all_stop (phrase : String)
    (h : ∀ w ∈ splitWs phrase, isStop w = true) :
    is_meaningful_phrase phrase = false := by
  simp only [is_meaningful_phrase]
  split_ifs with h1 h2 h3 h4 h5 h6 h7 <;> try rfl
  exfalso
  rw [Bool.not_eq_true', Bool.not_eq_false, List.any_eq_true] at h3
  obtain ⟨w, hwmem, hw⟩ := h3
  rw [Bool.not_eq_true'] at hw
  rw [h w hwmem] at hw
  cases hw

theorem imp_false_of_all_claimNoise (phrase : String)
    (h : ∀ w ∈ splitWs phrase, isStop w = false → claimNoise (normalize_token w) = true) :
    is_meaningful_phrase phrase = false := by
  apply imp_false_of_no_content_token
  rw [List.any_eq_false]
  intro t htmem
  rw [List.mem_map] at htmem
  obtain ⟨w, hwmem, rfl⟩ := htmem
  rw [List.mem_filter] at hwmem
  obtain ⟨hwmem, hwstop⟩ := hwmem
  rw [Bool.not_eq_true'] at hwstop
  have hnoise := h w hwmem hwstop
  have hnc := claimNoise_not_content _ hnoise
  intro habs
  apply hnc
  simp only [Bool.and_eq_true, decide_eq_true_eq] at habs
  exact ⟨habs.1.1, habs.1.2, habs.2⟩

theorem imp_false_of_no_strong_token (phrase : String)
    (h : ∀ w ∈ splitWs phrase, isStop w = false →
      ¬(3 ≤ (normalize_token w).length ∧ has_vowel (normalize_token w) = true ∧
        has_consonant (normalize_token w) = true)) :
    is_meaningful_phrase phrase = false := by
  apply imp_false_of_no_content_token
  rw [List.any_eq_false]
  intro t htmem
  rw [List.mem_map] at htmem
  obtain ⟨w, hwmem, rfl⟩ := htmem
  rw [List.mem_filter] at hwmem
  obtain ⟨hwmem, hwstop⟩ := hwmem
  rw [Bool.not_eq_true'] at hwstop
  have hnc := h w hwmem hwstop
  intro habs
  apply hnc
  simp only [Bool.and_eq_true, decide_eq_true_eq] at habs
  exact ⟨habs.1.1, habs.1.2, habs.2⟩

theorem imp_false_of_two_words_stop_end (phrase : String)
    (hlen : (splitWs phrase).length = 2)
    (hstop : isStop ((splitWs phrase).getLastD "") = true) :
    is_meaningful_phrase phrase = false := by
  simp only [is_meaningful_phrase]
  split_ifs with h1 h2 h3 h4 h5 h6 h7 <;> try rfl
  exact absurd ⟨hlen, hstop⟩ h7

theorem accepted_of_two_content_words (phrase w1 w2 : String)
    (hsplit : splitWs phrase = [w1, w2])
    (h1 : contentWord w1 = true) (h2 : contentWord w2 = true) :
    is_meaningful_phrase phrase = true := by
  simp only [contentWord, Bool.and_eq_true, Bool.not_eq_true', decide_eq_true_eq] at h1 h2
  obtain ⟨⟨⟨hstop1, hlen1⟩, hv1⟩, hcons1⟩ := h1
  obtain ⟨⟨⟨hstop2, hlen2⟩, hv2⟩, hcons2⟩ := h2
  have hnoise1 : is_noise_token (normalize_token w1) = false :=
    is_noise_token_of_content _ ⟨hlen1, hv1, hcons1⟩
  simp only [is_meaningful_phrase, hsplit]
  rw [if_neg (by simp)]
  rw [if_neg ?g2]
  case g2 =>
    rw [List.all_eq_true]
    intro hall
    have hx := hall (normalize_token w1) (by simp)
    rw [decide_eq_true_eq] at hx
    omega
  rw [if_neg ?g3]
  case g3 =>
    simp [hstop1]
  rw [if_neg ?g4]
  case g4 =>
    simp [List.filter, hstop1, hstop2]
  rw [if_neg ?g5]
  case g5 =>
    rw [List.all_eq_true]
    intro hall
    have hx := hall (normalize_token w1) (by simp [List.filter, hstop1, hstop2])
    rw [hnoise1] at hx
    cases hx
  rw [if_neg ?g6]
  case g6 =>
    rw [Bool.not_eq_true', Bool.not_eq_false, List.any_eq_true]
    refine ⟨normalize_token w1, by simp [List.filter, hstop1, hstop2], ?_⟩
    rw [Bool.and_eq_true, Bool.and_eq_true, decide_eq_true_eq]
    exact ⟨⟨hlen1, hv1⟩, hcons1⟩
  rw [if_neg ?g7]
  case g7 =>
    rintro ⟨_, hlast⟩
    have hlast2 : ([w1, w2].getLastD "") = w2 := rfl
    rw [hlast2, hstop2] at hlast
    cases hlast

/-- C5: `is_meaningful_phrase` returns `False` when all words are stopwords;
returns `False` when every non-stopword token is noise (length ≤ 2, or ≥ 3
identical repeated characters, or lacking a vowel or a consonant); returns
`False` when no content token has length ≥ 3 with both a vowel and a
consonant; returns `False` for exactly-2-word phrases ending in a stopword;
and accepts a 2-word phrase of two content words. -/
theorem meaningful_phrase_spec :
    (∀ phrase : String, (∀ w ∈ splitWs phrase, isStop w = true) →
      is_meaningful_phrase phrase = false) ∧
    (∀ phrase : String,
      (∀ w ∈ splitWs phrase, isStop w = false → claimNoise (normalize_token w) = true) →
      is_meaningful_phrase phrase = false) ∧
    (∀ phrase : String,
      (∀ w ∈ splitWs phrase, isStop w = false →
        ¬(3 ≤ (normalize_token w).length ∧ has_vowel (normalize_token w) = true ∧
          has_consonant (normalize_token w) = true)) →
      is_meaningful_phrase phrase = false) ∧
    (∀ phrase : String, (splitWs phrase).length = 2 →
      isStop ((splitWs phrase).getLastD "") = true →
      is_meaningful_phrase phrase = false) ∧
    (∀ phrase w1 w2 : String, splitWs phrase = [w1, w2] →
      contentWord w1 = true → contentWord w2 = true →
      is_meaningful_phrase phrase = true) :=
  ⟨imp_false_of_all_stop, imp_false_of_all_claimNoise, imp_false_of_no_strong_token,
    imp_false_of_two_words_stop_end, accepted_of_two_content_words⟩

/-- Witness for C5: "pizza to" (content word then stopword) is rejected, and
"domu okno" (two content words) is accepted. -/
theorem meaningful_phrase_spec_witness :
    ((splitWs "pizza to").length = 2 ∧ isStop ((splitWs "pizza to").getLastD "") = true ∧
      is_meaningful_phrase "pizza to" = false) ∧
    (splitWs "domu okno" = ["domu", "okno"] ∧ contentWord "domu" = true ∧
      contentWord "okno" = true ∧ is_meaningful_phrase "domu okno" = true) :=
  ⟨⟨by decide, by decide,
      meaningful_phrase_spec.2.2.2.1 "pizza to" (by decide) (by decide)⟩,
   ⟨by decide, by decide, by decide,
      meaningful_phrase_spec.2.2.2.2 "domu okno" "domu" "okno" (by decide) (by decide)
        (by decide)⟩⟩

/-! ## Tokenization pipelines (`text.tokenize`, `text.tokenize_raw`,
`text.sentiment_tokenize`) -/

/-- Python `\w` (`re.UNICODE`), modelled as ASCII alphanumerics plus the
underscore, with non-ASCII codepoints conservatively treated as word
characters (no theorem below depends on the exact Unicode word classes). -/
def isWordChar (c : Char) : Bool := c.isAlphanum || c = '_' || decide (128 ≤ c.toNat)

/-- Consume a case-insensitive literal pattern (given lowercase). -/
def matchCI : List Char → List Char → Option (List Char)
  | [], rest => some rest
  | _ :: _, [] => none
  | p :: ps, c :: cs => if c.toLower = p then matchCI ps cs else none

/-- Consume a nonempty run of non-whitespace characters (`\S+`, greedy). -/
def nonSpaceRun : List Char → Option (List Char)
  | [] => none
  | c :: cs => if isPySpace c then none else some (cs.dropWhile (fun d => !(isPySpace d)))

/-- A match of `URL_RE` (`https?://\S+|www\.\S+`, case-insensitive) starting
at the current position, returning the rest after the match. -/
def urlMatchAt (l : List Char) : Option (List Char) :=
  match matchCI "http".toList l with
  | some r1 =>
    (match r1 with
     | c :: cs =>
       if c.toLower = 's' then
         match matchCI "://".toList cs with
         | some r2 => nonSpaceRun r2
         | none =>
           match matchCI "://".toList r1 with
           | some r2 => nonSpaceRun r2
           | none => none
       else
         match matchCI "://".toList r1 with
         | some r2 => nonSpaceRun r2
         | none => none
     | [] => none)
  | none =>
    match matchCI "www.".toList l with
    | some r1 => nonSpaceRun r1
    | none => none

/-- `URL_RE.sub(" ", text)`: leftmost non-overlapping matches replaced by a
single space (fuelled scan; the fuel `l.length` always suffices because a
match consumes at least one character). -/
def urlSubAux : Nat → List Char → List Char
  | 0, l => l
  | _ + 1, [] => []
  | fuel + 1, c :: cs =>
    match urlMatchAt (c :: cs) with
    | some rest => ' ' :: urlSubAux fuel rest
    | none => c :: urlSubAux fuel cs

/-- `URL_RE.sub(" ", text)`. -/
def urlSub (l : List Char) : List Char := urlSubAux l.length l

/-- `PUNCT_RE.sub(" ", text)`: replace `[^\w\s]` by a space. -/
def punctSub (l : List Char) : List Char :=
  l.map (fun c => if !(isWordChar c) && !(isPySpace c) then ' ' else c)

/-- `SPACES_RE.sub(" ", text)`: collapse whitespace runs to one space. -/
def collapseSpacesAux : List Char → Bool → List Char
  | [], _ => []
  | c :: cs, prevSpace =>
    if isPySpace c then
      if prevSpace then collapseSpacesAux cs true
      else ' ' :: collapseSpacesAux cs true
    else c :: collapseSpacesAux cs false

/-- `SPACES_RE.sub(" ", text)`. -/
def collapseSpaces (l : List Char) : List Char := collapseSpacesAux l false

/-- Python `str.strip()`. -/
def stripSpaces (l : List Char) : List Char :=
  ((l.dropWhile isPySpace).reverse.dropWhile isPySpace).reverse

/-- Python `str.split(" ")` (single-space separator). -/
def splitOnSpaceAux : List Char → List (List Char)
  | [] => [[]]
  | c :: rest =>
    match splitOnSpaceAux rest with
    | [] => [[]]
    | h :: t => if c = ' ' then [] :: h :: t else (c :: h) :: t

/-- Python `str.isdigit()` (nonempty, all digits; ASCII digits modelled). -/
def isDigitToken (tok : List Char) : Bool := !(tok.isEmpty) && tok.all Char.isDigit

/-- The shared cleaning pipeline of the three tokenizers: lowercase, strip
URLs, underscores to spaces, strip punctuation, collapse and strip
whitespace. -/
def cleanForTokens (text : String) : List Char :=
  stripSpaces (collapseSpaces (punctSub
    ((urlSub (text.toList.map Char.toLower)).map (fun c => if c = '_' then ' ' else c))))

/-- `text.tokenize`: tokens of length ≥ 2, non-digit, not stopwords. -/
def tokenize (text : String) : List String :=
  let t := cleanForTokens text
  if t = [] then []
  else ((splitOnSpaceAux t).filter (fun tok =>
    !(decide (tok.length < 2)) && !(isDigitToken tok) &&
      !(STOPWORDS.contains ⟨tok⟩))).map (fun tok => (⟨tok⟩ : String))

/-- `text.tokenize_raw`: stopwords kept, empties dropped. -/
def tokenize_raw (text : String) : List String :=
  let t := cleanForTokens text
  if t = [] then []
  else ((splitOnSpaceAux t).filter (fun tok => !(tok.isEmpty))).map
    (fun tok => (⟨tok⟩ : String))

/-- `text.sentiment_tokenize`: length ≥ 2, non-digit, normalized, stopwords
kept. -/
def sentiment_tokenize (text : String) : List String :=
  let t := cleanForTokens text
  if t = [] then []
  else ((splitOnSpaceAux t).filter (fun tok =>
    !(decide (tok.length < 2)) && !(isDigitToken tok))).map
    (fun tok => normalize_token ⟨tok⟩)

/-- `text.generate_ngrams`: contiguous joins of length `n`. -/
def generate_ngrams (tokens : List String) (n : Nat) : List String :=
  if tokens.length < n then []
  else (List.range (tokens.length - n + 1)).map
    (fun i => String.intercalate " " ((tokens.drop i).take n))

/-! ## Sentiment heuristics (`text.sentiment_score`) -/

/-- `REPEAT_RE.sub(r"\1\1", text)`: collapse runs of 3 or more identical
characters to exactly 2 (`.` does not match a newline, so newline runs are
left alone).  The state is the last seen character with its current run
length. -/
def collapseRepeatsAux : List Char → Option (Char × Nat) → List Char
  | [], _ => []
  | c :: rest, some (p, n) =>
    if c = p ∧ c ≠ '\n' then
      if 2 ≤ n then collapseRepeatsAux rest (some (p, n + 1))
      else c :: collapseRepeatsAux rest (some (p, n + 1))
    else c :: collapseRepeatsAux rest (some (c, 1))
  | c :: rest, none => c :: collapseRepeatsAux rest (some (c, 1))

/-- `REPEAT_RE.sub(r"\1\1", text)`. -/
def collapseRepeats (l : List Char) : List Char := collapseRepeatsAux l none

/-- `text.TINY_MODEL_WEIGHTS` (floats as exact decimal rationals). -/
def TINY_MODEL_WEIGHTS : List (String × ℚ) :=
  [("super", 1.4), ("ok", 0.8), ("dobry", 1.2), ("swietny", 1.6), ("fajny", 1.1),
   ("kocham", 2.0), ("lubi", 0.9), ("lubie", 0.9), ("dzieki", 1.1), ("dziekuje", 1.1),
   ("spoko", 1.0), ("wow", 1.2), ("git", 1.1), ("cool", 1.2), ("nice", 1.1),
   ("great", 1.5), ("awesome", 1.7), ("love", 1.6), ("happy", 1.3), ("perfect", 1.6),
   ("yes", 0.7), ("yup", 0.6), ("thx", 0.8), ("thanks", 1.0), ("xD", 0.5),
   ("xd", 0.5), ("lol", 0.6), ("zly", -1.4), ("slaby", -1.1), ("smutny", -1.3),
   ("wkurza", -1.6), ("nie", -0.6), ("niechce", -1.1), ("nienawidze", -2.0),
   ("problem", -0.9), ("sorry", -0.7), ("bad", -1.2), ("sad", -1.2),
   ("angry", -1.5), ("hate", -1.8), ("nope", -0.8), ("worst", -1.6),
   ("sucks", -1.4), ("wtf", -1.3), ("eh", -0.4), ("serio", -0.6),
   ("bezsens", -1.1), ("masakra", -1.4)]

/-- `text.TINY_MODEL_BIAS`. -/
def TINY_MODEL_BIAS : ℚ := 0.0

/-- `text.EXTRA_SENTIMENT_WEIGHTS`. -/
def EXTRA_SENTIMENT_WEIGHTS : List (String × ℚ) :=
  [("wspanialy", 1.8), ("cudowny", 1.7), ("fantastyczny", 1.6), ("niesamowity", 1.6),
   ("rewelacja", 1.7), ("rewelacyjny", 1.6), ("extra", 1.1), ("fajnie", 1.0),
   ("pieknie", 1.2), ("uroczo", 1.1), ("slodko", 1.1), ("kochany", 1.4),
   ("uwielbiam", 1.9), ("dumna", 1.2), ("dumny", 1.2), ("wspaniale", 1.6),
   ("super", 1.4), ("genialny", 1.7), ("genialnie", 1.5), ("zajebiscie", 1.8),
   ("zajebisty", 1.8), ("spokojnie", 0.6), ("tragedia", -1.7), ("dramat", -1.6),
   ("beznadziejny", -1.7), ("okropny", -1.6), ("fatalny", -1.6), ("smutno", -1.3),
   ("smutny", -1.3), ("przykro", -1.1), ("zal", -1.1), ("zalosny", -1.2),
   ("zalosne", -1.2), ("zle", -1.2), ("gorzej", -0.9), ("slabo", -1.1),
   ("wkurzony", -1.4), ("wkurza", -1.4), ("wkurwiony", -1.6), ("zalamka", -1.4),
   ("bezsens", -1.1), ("nerwowo", -1.1), ("nerwowy", -1.1), ("stres", -1.0),
   ("stresujace", -1.1), ("okropnie", -1.5), ("niefajny", -1.0)]

/-- `SENTIMENT_LEXICON.get(token, 0.0)` where
`SENTIMENT_LEXICON = {**TINY_MODEL_WEIGHTS, **EXTRA_SENTIMENT_WEIGHTS}`
(entries of the extra table override the tiny table). -/
def lexiconWeight (token : String) : ℚ :=
  match EXTRA_SENTIMENT_WEIGHTS.lookup token with
  | some w => w
  | none => (TINY_MODEL_WEIGHTS.lookup token).getD 0

/-- `text.INTENSIFIERS`. -/
def INTENSIFIERS : List (String × ℚ) :=
  [("bardzo", 1.3), ("mega", 1.4), ("super", 1.2), ("strasznie", 1.4),
   ("naprawde", 1.2), ("totalnie", 1.2), ("mocno", 1.2), ("niesamowicie", 1.4),
   ("cholernie", 1.3)]

/-- `text.DAMPENERS`. -/
def DAMPENERS : List (String × ℚ) :=
  [("troche", 0.7), ("troszke", 0.7), ("lekko", 0.8), ("raczej", 0.8)]

/-- `text.NEGATIONS`. -/
def NEGATIONS : List String :=
  ["nie", "nigdy", "bez", "zadne", "zadnych", "zadna", "zadnego", "nikt", "nic"]

/-- The token walk of `text.sentiment_score`: an intensifier multiplier
(kept by `max`, reset after use), a dampener factor, and a negation counter
that flips and dampens the next two matched sentiment weights by 0.85. -/
def sentLoop : List String → ℚ → ℚ → Nat → ℚ
  | [], score, _, _ => score
  | token :: rest, score, intensify, negate =>
    if NEGATIONS.contains token then sentLoop rest score intensify 2
    else
      match INTENSIFIERS.lookup token with
      | some v => sentLoop rest score (max intensify v) negate
      | none =>
        match DAMPENERS.lookup token with
        | some v => sentLoop rest score (intensify * v) negate
        | none =>
          let weight := lexiconWeight token
          if weight = 0 then sentLoop rest score intensify negate
          else
            let weight2 := if 0 < negate then -weight * (85 / 100) else weight
            let negate2 := if 0 < negate then negate - 1 else negate
            sentLoop rest (score + weight2 * intensify) 1 negate2

/-- Consume a case-insensitive run of one repeated character, returning the
run length and the rest. -/
def repRun (d : Char) : List Char → Nat × List Char
  | [] => (0, [])
  | c :: cs =>
    if c.toLower = d then
      match repRun d cs with
      | (n, r) => (n + 1, r)
    else (0, c :: cs)

/-- A match of `POSITIVE_EMOTICON_RE`
(`(:\)+|:-\)+|:d+|x-?d+|;\)+|<3)`, case-insensitive) at the current
position. -/
def posEmoticonAt (l : List Char) : Option (List Char) :=
  match l with
  | [] => none
  | c :: rest =>
    if c = ':' then
      match repRun ')' rest with
      | (n + 1, r) => some r
      | (0, _) =>
        match rest with
        | '-' :: r2 =>
          (match repRun ')' r2 with
           | (m + 1, r3) => some r3
           | (0, _) => none)
        | _ =>
          match repRun 'd' rest with
          | (k + 1, r) => some r
          | (0, _) => none
    else if c.toLower = 'x' then
      match rest with
      | '-' :: r2 =>
        (match repRun 'd' r2 with
         | (m + 1, r3) => some r3
         | (0, _) => none)
      | _ =>
        match repRun 'd' rest with
        | (k + 1, r) => some r
        | (0, _) => none
    else if c = ';' then
      match repRun ')' rest with
      | (k + 1, r) => some r
      | (0, _) => none
    else if c = '<' then
      match rest with
      | '3' :: r => some r
      | _ => none
    else none

/-- A match of `NEGATIVE_EMOTICON_RE`
(`(:\(+|:-\(+|:\x27\(+|=\(+|d:|d=|>:\()`, case-insensitive) at the
current position. -/
def negEmoticonAt (l : List Char) : Option (List Char) :=
  match l with
  | [] => none
  | c :: rest =>
    if c = ':' then
      match repRun '(' rest with
      | (n + 1, r) => some r
      | (0, _) =>
        match rest with
        | '-' :: r2 =>
          (match repRun '(' r2 with
           | (m + 1, r3) => some r3
           | (0, _) => none)
        | '\'' :: r2 =>
          (match repRun '(' r2 with
           | (m + 1, r3) => some r3
           | (0, _) => none)
        | _ => none
    else if c = '=' then
      match repRun '(' rest with
      | (m + 1, r) => some r
      | (0, _) => none
    else if c.toLower = 'd' then
      match rest with
      | ':' :: r => some r
      | '=' :: r => some r
      | _ => none
    else if c = '>' then
      match rest with
      | ':' :: '(' :: r => some r
      | _ => none
    else none

/-- `len(RE.findall(text))`: count leftmost non-overlapping matches of a
position matcher (fuelled scan; every match consumes at least one
character). -/
def scanCount (matchAt : List Char → Option (List Char)) : Nat → List Char → Nat
  | 0, _ => 0
  | _ + 1, [] => 0
  | fuel + 1, c :: cs =>
    match matchAt (c :: cs) with
    | some rest => 1 + scanCount matchAt fuel rest
    | none => scanCount matchAt fuel cs

/-- Does a prefix of `l` spell `pat`? -/
def startsWithList : List Char → List Char → Bool
  | [], _ => true
  | _ :: _, [] => false
  | p :: ps, c :: cs => p = c && startsWithList ps cs

/-- One position of `LAUGHTER_RE.search`
(`\b(ha){2,}|(he){2,}|(ja){2,}|lol+\b`, case-insensitive): the scan walks
the lowercased text remembering the previous character for the word
boundary. -/
def laughterAux : Option Char → List Char → Bool
  | _, [] => false
  | prev, c :: cs =>
    let l := c :: cs
    let boundary := match prev with
      | none => true
      | some p => !(isWordChar p)
    let lolHit := startsWithList "lol".toList l &&
      (match (l.drop 3).dropWhile (fun d => d = 'l') with
       | [] => true
       | d :: _ => !(isWordChar d))
    if (boundary && startsWithList "haha".toList l) ||
        startsWithList "hehe".toList l || startsWithList "jaja".toList l || lolHit then
      true
    else laughterAux (some c) cs

/-- `LAUGHTER_RE.search(text) is not None` (on the lowercased text, matching
`re.IGNORECASE`). -/
def laughterHit (l : List Char) : Bool := laughterAux none (l.map Char.toLower)

/-- `text.EMOJI_RE` character ranges. -/
def isEmojiChar (c : Char) : Bool :=
  let n := c.toNat
  decide ((0x1F1E6 ≤ n ∧ n ≤ 0x1F1FF) ∨ (0x1F300 ≤ n ∧ n ≤ 0x1F5FF) ∨
    (0x1F600 ≤ n ∧ n ≤ 0x1F64F) ∨ (0x1F680 ≤ n ∧ n ≤ 0x1F6FF) ∨
    (0x1F700 ≤ n ∧ n ≤ 0x1F77F) ∨ (0x1F780 ≤ n ∧ n ≤ 0x1F7FF) ∨
    (0x1F800 ≤ n ∧ n ≤ 0x1F8FF) ∨ (0x1F900 ≤ n ∧ n ≤ 0x1F9FF) ∨
    (0x1FA00 ≤ n ∧ n ≤ 0x1FAFF) ∨ (0x2600 ≤ n ∧ n ≤ 0x26FF) ∨
    (0x2700 ≤ n ∧ n ≤ 0x27BF))

/-- `text.extract_emojis` (each match of `EMOJI_RE` is a single character). -/
def extract_emojis (text : String) : List Char :=
  if text = "" then [] else text.toList.filter isEmojiChar

/-- `text.extract_links`: the matches of `URL_RE` (the link texts themselves
are not needed by any claim; the count per message is what `link_stats`
uses). -/
def extract_links_count (text : String) : Nat :=
  if text = "" then 0 else scanCount urlMatchAt text.toList.length text.toList

/-- `text.POSITIVE_EMOJI`. -/
def POSITIVE_EMOJI : List Char :=
  [Char.ofNat 0x1F602, Char.ofNat 0x1F60D, Char.ofNat 0x1F60A, Char.ofNat 0x1F600,
   Char.ofNat 0x1F601, Char.ofNat 0x1F973, Char.ofNat 0x1F970, Char.ofNat 0x1F44D,
   Char.ofNat 0x1F495, Char.ofNat 0x1F496, Char.ofNat 0x1F497, Char.ofNat 0x1F498,
   Char.ofNat 0x1F49B, Char.ofNat 0x1F49C, Char.ofNat 0x1F49A, Char.ofNat 0x1F49D,
   Char.ofNat 0x1F60E, Char.ofNat 0x1F609]

/-- `text.NEGATIVE_EMOJI`. -/
def NEGATIVE_EMOJI : List Char :=
  [Char.ofNat 0x1F62D, Char.ofNat 0x1F622, Char.ofNat 0x1F641, Char.ofNat 0x1F614,
   Char.ofNat 0x1F612, Char.ofNat 0x1F621, Char.ofNat 0x1F620, Char.ofNat 0x1F624,
   Char.ofNat 0x1F92C, Char.ofNat 0x1F494, Char.ofNat 0x1F625]

/-- `text.sentiment_score`: the full heuristic, with the final
`score / max(1.0, sqrt(count))` and `tanh(score / 2.0)` over the reals. -/
noncomputable def sentiment_score (text : String) : ℝ :=
  if text = "" then 0
  else
    let tokens := sentiment_tokenize ⟨collapseRepeats text.toList⟩
    let base := sentLoop tokens TINY_MODEL_BIAS 1 0
    let pos_emot := scanCount posEmoticonAt text.toList.length text.toList
    let neg_emot := scanCount negEmoticonAt text.toList.length text.toList
    let score1 := base + (6 / 10) * ((pos_emot : ℚ) - (neg_emot : ℚ))
    let score2 := if laughterHit text.toList then score1 + 1 / 2 else score1
    let emojis := extract_emojis text
    let pos_emo := emojis.countP (fun e => POSITIVE_EMOJI.contains e)
    let neg_emo := emojis.countP (fun e => NEGATIVE_EMOJI.contains e)
    let score3 := score2 + (7 / 10) * ((pos_emo : ℚ) - (neg_emo : ℚ))
    let punct := text.toList.countP (fun c => c = '!') + text.toList.countP (fun c => c = '?')
    let score4 := if punct ≠ 0 then score3 * (1 + min (3 / 10) ((4 / 100) * punct)) else score3
    let letters := text.toList.filter Char.isAlpha
    let score5 := if 4 ≤ letters.length ∧
        (6 / 10 : ℚ) ≤ ((letters.countP Char.isUpper : ℚ) / (letters.length : ℚ))
      then score4 * (11 / 10) else score4
    let cnt := tokens.length + pos_emot + neg_emot + pos_emo + neg_emo
    Real.tanh (((score5 : ℝ) / max 1 (Real.sqrt (cnt : ℝ))) / 2)

theorem tanh_mem_Ioo (x : ℝ) : -1 < Real.tanh x ∧ Real.tanh x < 1 := by
  rw [Real.tanh_eq_sinh_div_cosh]
  constructor
  · rw [lt_div_iff (Real.cosh_pos x)]
    have h := Real.sinh_lt_cosh (-x)
    rw [Real.sinh_neg, Real.cosh_neg] at h
    linarith
  · rw [div_lt_one (Real.cosh_pos x)]
    exact Real.sinh_lt_cosh x

/-- C3: `sentiment_score` always lies in `[-1, 1]`, and the empty string
scores exactly 0. -/
theorem sentiment_score_bounded (text : String) :
    (-1 ≤ sentiment_score text ∧ sentiment_score text ≤ 1) ∧
    sentiment_score "" = 0 := by
  constructor
  · by_cases h : text = ""
    · rw [sentiment_score, if_pos h]
      norm_num
    · rw [sentiment_score, if_neg h]
      constructor <;>
        [exact le_of_lt (tanh_mem_Ioo _).1; exact le_of_lt (tanh_mem_Ioo _).2]
  · rw [sentiment_score, if_pos rfl]

/-! ## Sentiment statistics (`metrics.sentiment_stats`) with a pluggable
batch scorer -/

/-- `metrics.SENTIMENT_BATCH_SIZE`. -/
def SENTIMENT_BATCH_SIZE : Nat := 32

/-- A value an external scorer returned for one text: either something
`float()` accepts (carrying its numeric value) or something it rejects with
`TypeError` / `ValueError`. -/
inductive PyVal where
  | num : ℝ → PyVal
  | junk : PyVal

/-- `float(score)` with the `except (TypeError, ValueError): score_val = 0.0`
fallback of `sentiment_stats`. -/
def scoreVal : PyVal → ℝ
  | PyVal.num r => r
  | PyVal.junk => 0

/-- An external batch scorer: a callable that may raise any exception
(modelled by `Except Unit`). -/
def Scorer := List String → Except Unit (List PyVal)

/-- Fuelled helper for the chunk slicing (each step consumes one fuel unit
and at least one element, so fuel equal to the list length suffices). -/
def chunks32Aux : Nat → List α → List (List α)
  | _, [] => []
  | 0, _ :: _ => []
  | fuel + 1, a :: t => ((a :: t).take 32) :: chunks32Aux fuel ((a :: t).drop 32)

/-- `range(0, len(items), SENTIMENT_BATCH_SIZE)` slicing into chunks of 32. -/
def chunks32 (l : List α) : List (List α) := chunks32Aux l.length l

/-- Python truthiness of `msg.content` (`None` and `""` are falsy). -/
def hasContent (m : Message) : Bool :=
  match m.content with
  | some c => !(c = "")
  | none => false

/-- The `(sender, timestamp, content)` triples collected from messages with
truthy content, in message order. -/
def sentimentItems (messages : List Message) : List (String × Int × String) :=
  messages.filterMap (fun m =>
    match m.content with
    | some c => if c = "" then none else some (m.sender_name, m.timestamp_ms, c)
    | none => none)

/-- The length fixup of `sentiment_stats`:
`(list(scores) + [0.0] * len(texts))[: len(texts)]` applied only when the
scorer returned a list of the wrong length. -/
def fixLen (texts : List String) (scores : List PyVal) : List PyVal :=
  if scores.length = texts.length then scores
  else (scores ++ List.replicate texts.length (PyVal.num 0)).take texts.length

/-- The `try/except` around one scorer call: on any exception the heuristic
`sentiment_score` is applied to each text of the chunk. -/
noncomputable def chunkRawScores (scorer : Scorer) (texts : List String) : List PyVal :=
  match scorer texts with
  | Except.error _ => texts.map (fun t => PyVal.num (sentiment_score t))
  | Except.ok scores => scores

/-- Scores actually consumed for a chunk: raw scores after the length
fixup. -/
noncomputable def chunkScores (scorer : Scorer) (texts : List String) : List PyVal :=
  fixLen texts (chunkRawScores scorer texts)

/-- The three accumulators of `sentiment_stats`: `per_sender_total` (float
Counter), `per_sender_count` (int Counter) and `by_month` (label to score
list), all in insertion order. -/
structure SentAcc where
  total : List (String × ℝ)
  count : List (String × Nat)
  byMonth : List (String × List ℝ)

/-- One message's contribution to the accumulators. -/
noncomputable def sentUpdate (tz : Tz) (acc : SentAcc) (sender : String) (ts : Int)
    (score : ℝ) : SentAcc :=
  { total := upsertWith acc.total sender (· + score) score
    count := bump acc.count sender
    byMonth := upsertWith acc.byMonth (tz.monthLabelOf ts) (· ++ [score]) [score] }

/-- The `for (sender, ts, _), score in zip(chunk, scores)` loop body. -/
noncomputable def processChunkZip (tz : Tz) :
    List ((String × Int × String) × PyVal) → SentAcc → SentAcc
  | [], acc => acc
  | (item, score) :: rest, acc =>
    processChunkZip tz rest (sentUpdate tz acc item.1 item.2.1 (scoreVal score))

/-- The chunked scorer path of `sentiment_stats`. -/
noncomputable def sentScorerLoop (tz : Tz) (scorer : Scorer) :
    List (List (String × Int × String)) → SentAcc → SentAcc
  | [], acc => acc
  | chunk :: rest, acc =>
    sentScorerLoop tz scorer rest
      (processChunkZip tz (chunk.zip (chunkScores scorer (chunk.map (fun it => it.2.2)))) acc)

/-- The scorer-less path of `sentiment_stats`: the heuristic applied message
by message. -/
noncomputable def sentDirectLoop (tz : Tz) : List Message → SentAcc → SentAcc
  | [], acc => acc
  | m :: rest, acc =>
    match m.content with
    | some c =>
      if c = "" then sentDirectLoop tz rest acc
      else sentDirectLoop tz rest
        (sentUpdate tz acc m.sender_name m.timestamp_ms (sentiment_score c))
    | none => sentDirectLoop tz rest acc

/-- One row of `per_sender_stats`. -/
structure SentimentEntry where
  avg : ℝ
  total : ℝ
  count : ℝ

/-- The summarisation step of `sentiment_stats`: per-sender
`{avg, total, count}` rows in `per_sender_total` insertion order, and the
`(label, mean)` month series sorted by label. -/
noncomputable def sentStatsOf (acc : SentAcc) :
    List (String × SentimentEntry) × List (String × ℝ) :=
  let per := acc.total.map (fun e =>
    let cnt := lookup0 acc.count e.1
    (e.1, SentimentEntry.mk (if cnt = 0 then 0 else e.2 / (cnt : ℝ)) e.2 (cnt : ℝ)))
  let months := (stableSortBy (fun a b => !(decide (b.1 < a.1))) acc.byMonth).map
    (fun e => (e.1, e.2.sum / (e.2.length : ℝ)))
  (per, months)

/-- `metrics.sentiment_stats`. -/
noncomputable def sentiment_stats (messages : List Message) (tz : Tz)
    (scorer : Option Scorer) : List (String × SentimentEntry) × List (String × ℝ) :=
  match scorer with
  | none => sentStatsOf (sentDirectLoop tz messages ⟨[], [], []⟩)
  | some sc => sentStatsOf (sentScorerLoop tz sc (chunks32 (sentimentItems messages)) ⟨[], [], []⟩)

/-- Reference fold: the heuristic applied to the items in order (what both
paths reduce to when the scorer always fails). -/
noncomputable def sentHeuFold (tz : Tz) : List (String × Int × String) → SentAcc → SentAcc
  | [], acc => acc
  | it :: rest, acc =>
    sentHeuFold tz rest (sentUpdate tz acc it.1 it.2.1 (sentiment_score it.2.2))

theorem sentHeuFold_append (tz : Tz) (a b : List (String × Int × String)) (acc : SentAcc) :
    sentHeuFold tz (a ++ b) acc = sentHeuFold tz b (sentHeuFold tz a acc) := by
  induction a generalizing acc with
  | nil => rfl
  | cons it rest ih => simp [sentHeuFold, ih]

theorem processChunkZip_heu (tz : Tz) (chunk : List (String × Int × String)) (acc : SentAcc) :
    processChunkZip tz
      (chunk.zip ((chunk.map (fun it => it.2.2)).map (fun t => PyVal.num (sentiment_score t))))
      acc = sentHeuFold tz chunk acc := by
  induction chunk generalizing acc with
  | nil => rfl
  | cons it rest ih =>
    simp only [List.map_cons, List.zip_cons_cons, processChunkZip, scoreVal]
    exact ih _

theorem chunkScores_of_error (scorer : Scorer) (texts : List String)
    (h : scorer texts = Except.error ()) :
    chunkScores scorer texts = texts.map (fun t => PyVal.num (sentiment_score t)) := by
  unfold chunkScores chunkRawScores
  rw [h]
  unfold fixLen
  rw [if_pos (by simp)]

theorem sentScorerLoopAux_of_error (tz : Tz) (scorer : Scorer)
    (herr : ∀ texts, scorer texts = Except.error ()) :
    ∀ (fuel : Nat) (items : List (String × Int × String)) (acc : SentAcc),
      items.length ≤ fuel →
      sentScorerLoop tz scorer (chunks32Aux fuel items) acc = sentHeuFold tz items acc := by
  intro fuel
  induction fuel with
  | zero =>
    intro items acc hlen
    have : items = [] := List.length_eq_zero.mp (Nat.le_zero.mp hlen)
    subst this
    rfl
  | succ n ih =>
    intro items acc hlen
    cases items with
    | nil => rfl
    | cons a t =>
      show sentScorerLoop tz scorer (chunks32Aux n ((a :: t).drop 32))
        (processChunkZip tz (((a :: t).take 32).zip
          (chunkScores scorer (((a :: t).take 32).map (fun it => it.2.2)))) acc) = _
      rw [chunkScores_of_error scorer _ (herr _), processChunkZip_heu]
      rw [ih ((a :: t).drop 32) _ ?hlen2]
      case hlen2 =>
        simp only [List.length_drop, List.length_cons] at hlen ⊢
        omega
      rw [← sentHeuFold_append]
      rw [List.take_append_drop]

theorem sentScorerLoop_of_error (tz : Tz) (scorer : Scorer)
    (herr : ∀ texts, scorer texts = Except.error ())
    (items : List (String × Int × String)) (acc : SentAcc) :
    sentScorerLoop tz scorer (chunks32 items) acc = sentHeuFold tz items acc :=
  sentScorerLoopAux_of_error tz scorer herr items.length items acc le_rfl

theorem sentDirectLoop_heu (tz : Tz) :
    ∀ (messages : List Message) (acc : SentAcc),
      sentDirectLoop tz messages acc = sentHeuFold tz (sentimentItems messages) acc := by
  intro messages
  induction messages with
  | nil => intro acc; rfl
  | cons m rest ih =>
    intro acc
    cases hc : m.content with
    | none =>
      simp only [sentDirectLoop, hc]
      have hitems : sentimentItems (m :: rest) = sentimentItems rest := by
        simp [sentimentItems, List.filterMap_cons, hc]
      rw [hitems]
      exact ih acc
    | some c =>
      by_cases hce : c = ""
      · subst hce
        simp only [sentDirectLoop, hc, if_pos rfl]
        have : sentimentItems (m :: rest) = sentimentItems rest := by
          simp [sentimentItems, List.filterMap_cons, hc]
        rw [this]
        exact ih acc
      · simp only [sentDirectLoop, hc, if_neg hce]
        have : sentimentItems (m :: rest)
            = (m.sender_name, m.timestamp_ms, c) :: sentimentItems rest := by
          simp [sentimentItems, List.filterMap_cons, hc, hce]
        rw [this]
        simp only [sentHeuFold]
        exact ih _

/-- C6: a scorer exception on a chunk is caught, the chunk's scores are
replaced by the built-in heuristic per text, and the exception never
propagates: an always-raising scorer produces exactly the statistics of the
built-in heuristic path. -/
theorem sentiment_stats_scorer_fallback (messages : List Message) (tz : Tz) (scorer : Scorer)
    (herr : ∀ texts, scorer texts = Except.error ()) :
    sentiment_stats messages tz (some scorer) = sentiment_stats messages tz none ∧
    (∀ texts, chunkScores scorer texts = texts.map (fun t => PyVal.num (sentiment_score t))) := by
  constructor
  · show sentStatsOf (sentScorerLoop tz scorer (chunks32 (sentimentItems messages)) ⟨[], [], []⟩)
      = sentStatsOf (sentDirectLoop tz messages ⟨[], [], []⟩)
    rw [sentScorerLoop_of_error tz scorer herr, sentDirectLoop_heu]
  · intro texts
    exact chunkScores_of_error scorer texts (herr texts)

/-- Witness for C6: the always-raising scorer on a concrete two-message
conversation. -/
theorem sentiment_stats_scorer_fallback_witness :
    (∀ texts, (fun _ : List String => (Except.error () : Except Unit (List PyVal))) texts
        = Except.error ()) ∧
    sentiment_stats
        [⟨"A", 0, some "hello there", none, 0, 0, 0, 0, 0⟩,
         ⟨"B", 1000, some "great", none, 0, 0, 0, 0, 0⟩]
        ⟨fun _ => ⟨0, by omega⟩, fun _ => ⟨0, by omega⟩, fun _ => "1970-01",
          fun _ => "1970-01-01", "UTC"⟩
        (some (fun _ => Except.error ())) =
      sentiment_stats
        [⟨"A", 0, some "hello there", none, 0, 0, 0, 0, 0⟩,
         ⟨"B", 1000, some "great", none, 0, 0, 0, 0, 0⟩]
        ⟨fun _ => ⟨0, by omega⟩, fun _ => ⟨0, by omega⟩, fun _ => "1970-01",
          fun _ => "1970-01-01", "UTC"⟩
        none :=
  ⟨fun _ => rfl,
    (sentiment_stats_scorer_fallback _ _ _ (fun _ => rfl)).1⟩

theorem length_fixLen (texts : List String) (scores : List PyVal) :
    (fixLen texts scores).length = texts.length := by
  unfold fixLen
  split_ifs with h
  · exact h
  · simp only [List.length_take, List.length_append, List.length_replicate]
    omega

theorem length_chunkScores (scorer : Scorer) (texts : List String) :
    (chunkScores scorer texts).length = texts.length :=
  length_fixLen texts (chunkRawScores scorer texts)

theorem processChunkZip_count (tz : Tz) (x : String) :
    ∀ (zipped : List ((String × Int × String) × PyVal)) (acc : SentAcc),
      lookup0 (processChunkZip tz zipped acc).count x
        = lookup0 acc.count x + zipped.countP (fun p => p.1.1 == x) := by
  intro zipped
  induction zipped with
  | nil => intro acc; simp [processChunkZip]
  | cons p rest ih =>
    intro acc
    obtain ⟨item, score⟩ := p
    simp only [processChunkZip, List.countP_cons]
    rw [ih]
    have : lookup0 (sentUpdate tz acc item.1 item.2.1 (scoreVal score)).count x
        = lookup0 acc.count x + (if x = item.1 then 1 else 0) := by
      unfold sentUpdate
      exact lookup0_bump acc.count item.1 x
    rw [this]
    by_cases hx : x = item.1
    · have hb : (item.1 == x) = true := beq_iff_eq.mpr hx.symm
      rw [if_pos hx, if_pos hb]
      omega
    · have hb : ¬ ((item.1 == x) = true) := by
        rw [beq_iff_eq]; exact fun h => hx h.symm
      rw [if_neg hx, if_neg hb]
      omega

theorem countP_zip_fst (x : String) :
    ∀ (a : List (String × Int × String)) (b : List PyVal), a.length = b.length →
      (a.zip b).countP (fun p => p.1.1 == x) = a.countP (fun it => it.1 == x) := by
  intro a
  induction a with
  | nil => intro b _; simp
  | cons it rest ih =>
    intro b hlen
    cases b with
    | nil => simp at hlen
    | cons y brest =>
      simp only [List.zip_cons_cons, List.countP_cons]
      rw [ih brest (by simpa using hlen)]

theorem sentScorerLoopAux_count (tz : Tz) (scorer : Scorer) (x : String) :
    ∀ (fuel : Nat) (items : List (String × Int × String)) (acc : SentAcc),
      items.length ≤ fuel →
      lookup0 (sentScorerLoop tz scorer (chunks32Aux fuel items) acc).count x
        = lookup0 acc.count x + items.countP (fun it => it.1 == x) := by
  intro fuel
  induction fuel with
  | zero =>
    intro items acc hlen
    have : items = [] := List.length_eq_zero.mp (Nat.le_zero.mp hlen)
    subst this
    simp [chunks32Aux, sentScorerLoop]
  | succ n ih =>
    intro items acc hlen
    cases items with
    | nil => simp [chunks32Aux, sentScorerLoop]
    | cons a t =>
      show lookup0 (sentScorerLoop tz scorer (chunks32Aux n ((a :: t).drop 32))
        (processChunkZip tz (((a :: t).take 32).zip
          (chunkScores scorer (((a :: t).take 32).map (fun it => it.2.2)))) acc)).count x = _
      rw [ih ((a :: t).drop 32) _ ?hlen2]
      case hlen2 =>
        simp only [List.length_drop, List.length_cons] at hlen ⊢
        omega
      rw [processChunkZip_count]
      rw [countP_zip_fst x _ _ ?hzl]
      case hzl =>
        rw [length_chunkScores, List.length_map]
      have hsplit : ((a :: t).take 32).countP (fun it => it.1 == x) +
          ((a :: t).drop 32).countP (fun it => it.1 == x)
          = (a :: t).countP (fun it => it.1 == x) := by
        rw [← List.countP_append, List.take_append_drop]
      omega

theorem sentimentItems_countP (x : String) :
    ∀ messages : List Message,
      (sentimentItems messages).countP (fun it => it.1 == x)
        = messages.countP (fun m => hasContent m && (m.sender_name == x)) := by
  intro messages
  induction messages with
  | nil => rfl
  | cons m rest ih =>
    cases hc : m.content with
    | none =>
      have h1 : sentimentItems (m :: rest) = sentimentItems rest := by
        simp [sentimentItems, List.filterMap_cons, hc]
      have h2 : (hasContent m && (m.sender_name == x)) = false := by
        simp [hasContent, hc]
      rw [h1, List.countP_cons, h2, ih]
      simp
    | some c =>
      by_cases hce : c = ""
      · subst hce
        have h1 : sentimentItems (m :: rest) = sentimentItems rest := by
          simp [sentimentItems, List.filterMap_cons, hc]
        have h2 : (hasContent m && (m.sender_name == x)) = false := by
          simp [hasContent, hc]
        rw [h1, List.countP_cons, h2, ih]
        simp
      · have h1 : sentimentItems (m :: rest)
            = (m.sender_name, m.timestamp_ms, c) :: sentimentItems rest := by
          simp [sentimentItems, List.filterMap_cons, hc, hce]
        have h2 : (hasContent m && (m.sender_name == x)) = (m.sender_name == x) := by
          simp [hasContent, hc, hce]
        rw [h1, List.countP_cons, List.countP_cons, h2, ih]

/-- C10: the scorer's result list is padded with 0.0 or truncated to the
chunk length; unconvertible scores become 0.0; and the per-sender counts
still equal the number of that sender's messages with content. -/
theorem sentiment_scorer_length_fixup :
    (∀ (texts : List String) (scores : List PyVal),
      (fixLen texts scores).length = texts.length) ∧
    (∀ (texts : List String) (scores : List PyVal), texts.length ≤ scores.length →
      fixLen texts scores = scores.take texts.length) ∧
    (∀ (texts : List String) (scores : List PyVal), scores.length < texts.length →
      fixLen texts scores = scores ++ List.replicate (texts.length - scores.length)
        (PyVal.num 0)) ∧
    (scoreVal PyVal.junk = 0 ∧ ∀ r : ℝ, scoreVal (PyVal.num r) = r) ∧
    (∀ (messages : List Message) (tz : Tz) (scorer : Scorer) (x : String),
      lookup0 (sentScorerLoop tz scorer (chunks32 (sentimentItems messages))
          ⟨[], [], []⟩).count x
        = messages.countP (fun m => hasContent m && (m.sender_name == x))) ∧
    (∀ (messages : List Message) (tz : Tz) (scorer : Scorer)
      (e : String × SentimentEntry), e ∈ (sentiment_stats messages tz (some scorer)).1 →
      e.2.count = (lookup0 (sentScorerLoop tz scorer (chunks32 (sentimentItems messages))
        ⟨[], [], []⟩).count e.1 : ℝ)) := by
  refine ⟨length_fixLen, ?_, ?_, ⟨rfl, fun r => rfl⟩, ?_, ?_⟩
  · intro texts scores h
    unfold fixLen
    split_ifs with heq
    · rw [← heq, List.take_length]
    · rw [List.take_append_eq_append_take]
      have : texts.length - scores.length = 0 := by omega
      rw [this]
      simp
  · intro texts scores h
    unfold fixLen
    rw [if_neg (by omega)]
    rw [List.take_append_eq_append_take]
    have h1 : scores.take texts.length = scores := List.take_of_length_le (by omega)
    rw [h1, List.take_replicate]
    have hmin : min (texts.length - scores.length) texts.length
        = texts.length - scores.length := by omega
    rw [hmin]
  · intro messages tz scorer x
    show lookup0 (sentScorerLoop tz scorer
      (chunks32Aux (sentimentItems messages).length (sentimentItems messages))
      ⟨[], [], []⟩).count x = _
    rw [sentScorerLoopAux_count tz scorer x (sentimentItems messages).length _ _ le_rfl]
    rw [sentimentItems_countP]
    simp [lookup0]
  · intro messages tz scorer e he
    have : (sentiment_stats messages tz (some scorer)).1 =
        (sentScorerLoop tz scorer (chunks32 (sentimentItems messages))
          ⟨[], [], []⟩).total.map (fun en =>
        (en.1, SentimentEntry.mk
          (if lookup0 (sentScorerLoop tz scorer (chunks32 (sentimentItems messages))
              ⟨[], [], []⟩).count en.1 = 0 then 0
            else en.2 / ((lookup0 (sentScorerLoop tz scorer (chunks32 (sentimentItems messages))
              ⟨[], [], []⟩).count en.1 : ℕ) : ℝ)) en.2
          ((lookup0 (sentScorerLoop tz scorer (chunks32 (sentimentItems messages))
            ⟨[], [], []⟩).count en.1 : ℕ) : ℝ))) := rfl
    rw [this] at he
    rw [List.mem_map] at he
    obtain ⟨en, _, rfl⟩ := he
    rfl

/-- Witness for C10: a 2-text chunk against a 1-score result (padded) and a
3-score result (truncated). -/
theorem sentiment_scorer_length_fixup_witness :
    ((["a", "b"] : List String).length ≤
        ([PyVal.num 1, PyVal.junk, PyVal.num 2] : List PyVal).length ∧
      fixLen ["a", "b"] [PyVal.num 1, PyVal.junk, PyVal.num 2]
        = [PyVal.num 1, PyVal.junk, PyVal.num 2].take 2) ∧
    (([PyVal.junk] : List PyVal).length < (["a", "b"] : List String).length ∧
      fixLen ["a", "b"] [PyVal.junk]
        = [PyVal.junk] ++ List.replicate 1 (PyVal.num 0)) :=
  ⟨⟨by decide, sentiment_scorer_length_fixup.2.1 ["a", "b"] _ (by decide)⟩,
   ⟨by decide, sentiment_scorer_length_fixup.2.2.1 ["a", "b"] [PyVal.junk] (by decide)⟩⟩

/-! ## Vibe radar (`report.compute_radar`) -/

/-- Python `round(x, 1)` on the exact rational model: scale by ten and round
half to even. -/
def roundHalfEven (x : ℚ) : ℤ :=
  let f := ⌊x⌋
  let r := x - (f : ℚ)
  if r < 1 / 2 then f
  else if 1 / 2 < r then f + 1
  else if f % 2 = 0 then f else f + 1

/-- Python `round(x, 1)`. -/
def round1 (x : ℚ) : ℚ := ((roundHalfEven (x * 10) : ℤ) : ℚ) / 10

/-- The metrics-bundle fields `report.compute_radar` reads; each dict with
its `.get` default is modelled by a total function on sender names. -/
structure RadarInput where
  message_counts : String → Nat
  message_shares : String → ℚ
  emoji_totals : String → Nat
  emoji_hearts : String → Nat
  sentiment_avg : String → ℚ

/-- `emoji_ratio[user]`: emoji total over `message_counts.get(user, 0) or 1`. -/
def emojiRatio (inp : RadarInput) (user : String) : ℚ :=
  let total_msgs := if inp.message_counts user = 0 then 1 else inp.message_counts user
  (inp.emoji_totals user : ℚ) / (total_msgs : ℚ)

/-- `heart_ratio[user]`. -/
def heartRatio (inp : RadarInput) (user : String) : ℚ :=
  let total_msgs := if inp.message_counts user = 0 then 1 else inp.message_counts user
  (inp.emoji_hearts user : ℚ) / (total_msgs : ℚ)

/-- Python `max(values, default=0.0)`. -/
def maxD (l : List ℚ) : ℚ :=
  match l with
  | [] => 0
  | a :: t => t.foldl max a

/-- The per-user axes of `compute_radar` (before display rounding). -/
def radarPositivity (inp : RadarInput) (user : String) : ℚ :=
  max 0 (min 100 (50 + inp.sentiment_avg user * 15))

/-- Drama axis: `max(0.0, min(100.0, 50 + max(-avg_sentiment, 0.0) * 20))`. -/
def radarDrama (inp : RadarInput) (user : String) : ℚ :=
  max 0 (min 100 (50 + max (-(inp.sentiment_avg user)) 0 * 20))

/-- Humor axis: emoji ratio normalized against the maximum across users. -/
def radarHumor (inp : RadarInput) (users : List String) (user : String) : ℚ :=
  let maxE := maxD (users.map (emojiRatio inp))
  if maxE ≠ 0 then emojiRatio inp user / maxE * 100 else 0

/-- Love axis: heart-emoji ratio, same normalization. -/
def radarLove (inp : RadarInput) (users : List String) (user : String) : ℚ :=
  let maxH := maxD (users.map (heartRatio inp))
  if maxH ≠ 0 then heartRatio inp user / maxH * 100 else 0

/-- Gossip axis: `max(0.0, min(100.0, message_shares.get(user, 0.0)))`. -/
def radarGossip (inp : RadarInput) (user : String) : ℚ :=
  max 0 (min 100 (inp.message_shares user))

/-- One dataset row of the radar payload. -/
structure RadarDataset where
  label : String
  values : List ℚ
  color : String
deriving DecidableEq, Repr

/-- `report.compute_radar`: fixed labels plus one dataset per user with the
five axes rounded to one decimal. -/
def compute_radar (inp : RadarInput) (users : List String) :
    List String × List RadarDataset :=
  (["Humor", "Wsparcie", "Plotki", "Milosc", "Dramy"],
    users.enum.map (fun iu =>
      { label := iu.2
        values := [round1 (radarHumor inp users iu.2), round1 (radarPositivity inp iu.2),
          round1 (radarGossip inp iu.2), round1 (radarLove inp users iu.2),
          round1 (radarDrama inp iu.2)]
        color := if iu.1 = 0 then "#2E3DE3" else "#FF0080" }))

/-- The spec-side clamp. -/
def clamp (lo hi x : ℚ) : ℚ := max lo (min hi x)

/-- C9: for every metrics bundle and selected participant, the radar dataset
row stores, at the Positivity, Gossip and Drama positions, the one-decimal
rounding of `clamp(0,100, 50 + avgSentiment*15)`, `clamp(0,100, share)` and
`clamp(0,100, 50 + max(-avgSentiment,0)*20)`, with `avgSentiment` the
participant's average sentiment from the bundle. -/
theorem compute_radar_axes (inp : RadarInput) (users : List String) (i : Nat) (u : String)
    (hu : users[i]? = some u) :
    radarGossip inp u = clamp 0 100 (inp.message_shares u) ∧
    radarPositivity inp u = clamp 0 100 (50 + inp.sentiment_avg u * 15) ∧
    radarDrama inp u = clamp 0 100 (50 + max (-(inp.sentiment_avg u)) 0 * 20) ∧
    ∃ ds : RadarDataset, ((compute_radar inp users).2)[i]? = some ds ∧
      ds.label = u ∧
      ds.values[1]? = some (round1 (clamp 0 100 (50 + inp.sentiment_avg u * 15))) ∧
      ds.values[2]? = some (round1 (clamp 0 100 (inp.message_shares u))) ∧
      ds.values[4]? = some (round1 (clamp 0 100 (50 + max (-(inp.sentiment_avg u)) 0 * 20))) := by
  refine ⟨rfl, rfl, rfl, ?_⟩
  refine ⟨{ label := u
            values := [round1 (radarHumor inp users u), round1 (radarPositivity inp u),
              round1 (radarGossip inp u), round1 (radarLove inp users u),
              round1 (radarDrama inp u)]
            color := if i = 0 then "#2E3DE3" else "#FF0080" }, ?_, rfl, rfl, rfl, rfl⟩
  show (users.enum.map _)[i]? = _
  rw [List.getElem?_map, List.getElem?_enum, hu]
  rfl

/-- Witness for C9 at a concrete bundle and user list. -/
theorem compute_radar_axes_witness :
    ((["A", "B"] : List String)[0]? = some "A") ∧
    (radarGossip ⟨fun _ => 4, fun _ => 50, fun _ => 2, fun _ => 1, fun _ => 1⟩ "A"
        = clamp 0 100 (50 : ℚ) ∧
      radarPositivity ⟨fun _ => 4, fun _ => 50, fun _ => 2, fun _ => 1, fun _ => 1⟩ "A"
        = clamp 0 100 (50 + (1 : ℚ) * 15) ∧
      radarDrama ⟨fun _ => 4, fun _ => 50, fun _ => 2, fun _ => 1, fun _ => 1⟩ "A"
        = clamp 0 100 (50 + max (-(1 : ℚ)) 0 * 20) ∧
      ∃ ds : RadarDataset,
      ((compute_radar ⟨fun _ => 4, fun _ => 50, fun _ => 2, fun _ => 1, fun _ => 1⟩
        ["A", "B"]).2)[0]? = some ds ∧
      ds.label = "A" ∧
      ds.values[1]? = some (round1 (clamp 0 100 (50 + (1 : ℚ) * 15))) ∧
      ds.values[2]? = some (round1 (clamp 0 100 (50 : ℚ))) ∧
      ds.values[4]? = some (round1 (clamp 0 100 (50 + max (-(1 : ℚ)) 0 * 20)))) :=
  ⟨rfl, compute_radar_axes ⟨fun _ => 4, fun _ => 50, fun _ => 2, fun _ => 1, fun _ => 1⟩
    ["A", "B"] 0 "A" rfl⟩

/-! ## The remaining engine statistics (`metrics.py`) -/

/-- `metrics.message_counts`: `dict(Counter(sender for ...))`. -/
def message_counts (messages : List Message) : List (String × Nat) :=
  messages.foldl (fun acc m => bump acc m.sender_name) []

/-- `metrics.response_time_deltas`: seconds between different-sender
adjacent pairs, attributed to the replier, kept when within
`[min_seconds, max_seconds]`. -/
def response_time_deltas (messages : List Message) (min_seconds max_seconds : ℚ) :
    List (String × List ℚ) :=
  let sorted_messages := sort_messages messages
  (sorted_messages.zip sorted_messages.tail).foldl (fun acc pr =>
    if pr.1.sender_name = pr.2.sender_name then acc
    else
      let delta_seconds := ((pr.2.timestamp_ms - pr.1.timestamp_ms : ℤ) : ℚ) / 1000
      if delta_seconds < min_seconds ∨ max_seconds < delta_seconds then acc
      else upsertWith acc pr.2.sender_name (· ++ [delta_seconds]) [delta_seconds]) []

/-- `metrics.summarize_response_times`. -/
def summarize_response_times (deltas_by_sender : List (String × List ℚ)) :
    List (String × ResponseStats) :=
  deltas_by_sender.map (fun e => (e.1, summarize_delta_list e.2))

/-- `metrics.overall_response_stats`. -/
def overall_response_stats (deltas_by_sender : List (String × List ℚ)) : ResponseStats :=
  summarize_delta_list ((deltas_by_sender.map Prod.snd).join)

/-- The result of `metrics.response_time_extremes`. -/
structure Extremes where
  min_min : Option ℚ
  max_min : Option ℚ
  min_sender : Option String
  max_sender : Option String
deriving DecidableEq, Repr

/-- `metrics.response_time_extremes`: first-strict minimum and maximum over
all deltas in iteration order, reported in minutes. -/
def response_time_extremes (deltas_by_sender : List (String × List ℚ)) : Extremes :=
  let st := deltas_by_sender.foldl (fun st e =>
    e.2.foldl (fun (st : Option (ℚ × String) × Option (ℚ × String)) delta =>
      let stMin := match st.1 with
        | none => some (delta, e.1)
        | some b => if delta < b.1 then some (delta, e.1) else some b
      let stMax := match st.2 with
        | none => some (delta, e.1)
        | some b => if delta > b.1 then some (delta, e.1) else some b
      (stMin, stMax)) st) ((none, none) : Option (ℚ × String) × Option (ℚ × String))
  { min_min := st.1.map (fun b => b.1 / 60)
    max_min := st.2.map (fun b => b.1 / 60)
    min_sender := st.1.map (fun b => b.2)
    max_sender := st.2.map (fun b => b.2) }

/-- `metrics.response_time_leaders`: arg-min / arg-max of per-sender mean. -/
def response_time_leaders (response_stats : List (String × ResponseStats)) :
    Option (String × ℚ) × Option (String × ℚ) :=
  let candidates := response_stats.filterMap (fun e => e.2.avg_min.map (fun a => (e.1, a)))
  (firstMinBy (fun e => e.2) candidates, firstMaxBy (fun e => e.2) candidates)

/-- `"user" in content_lower or "unsent" in content_lower`. -/
def containsSub (pat : List Char) (s : List Char) : Bool :=
  (List.range (s.length + 1)).any (fun i => startsWithList pat (s.drop i))

/-- The placeholder-redaction filter of `word_stats` / `popular_phrases`. -/
def isRedacted (content : String) : Bool :=
  let lower := content.toList.map Char.toLower
  containsSub "user".toList lower || containsSub "unsent".toList lower

/-- `metrics.word_stats`: global top-10 and per-sender top-5 token counts. -/
def word_stats (messages : List Message) :
    List (String × Nat) × List (String × List (String × Nat)) :=
  let gp := messages.foldl (fun (gp : List (String × Nat) × List (String × List (String × Nat))) m =>
    match m.content with
    | none => gp
    | some content =>
      if content = "" then gp
      else if isRedacted content then gp
      else
        let tokens := tokenize content
        if tokens = [] then gp
        else
          (tokens.foldl bump gp.1,
            upsertWith gp.2 m.sender_name (fun inner => tokens.foldl bump inner)
              (tokens.foldl bump []))) ([], [])
  (mostCommon gp.1 10, gp.2.map (fun e => (e.1, mostCommon e.2 5)))

/-- `metrics.top_hours`: five most common local hours. -/
def top_hours (messages : List Message) (tz : Tz) : List (Nat × Nat) :=
  mostCommon (messages.foldl (fun acc m => bump acc (tz.hourOf m.timestamp_ms : Nat)) []) 5

/-- `metrics.top_weekdays`: up to five most common weekday names. -/
def top_weekdays (messages : List Message) (tz : Tz) : List (String × Nat) :=
  let top := mostCommonAll
    (messages.foldl (fun acc m => bump acc (tz.weekdayOf m.timestamp_ms : Nat)) [])
  (top.take 5).map (fun e => (WEEKDAY_NAMES.getD e.1 "", e.2))

/-- `metrics.messages_per_month`: counts per `YYYY-MM` label, sorted by
label. -/
def messages_per_month (messages : List Message) (tz : Tz) : List (String × Nat) :=
  stableSortBy (fun a b => !(decide (b.1 < a.1)))
    (messages.foldl (fun acc m => bump acc (tz.monthLabelOf m.timestamp_ms)) [])

/-- `metrics.most_active_day`: the day label with the maximal count. -/
def most_active_day (messages : List Message) (tz : Tz) : Option (String × Nat) :=
  firstMaxBy (fun e => e.2)
    (messages.foldl (fun acc m => bump acc (tz.dayLabelOf m.timestamp_ms)) [])

/-- The result of `metrics.longest_gap` (the returned datetimes are modelled
by their epoch-millisecond timestamps). -/
structure GapInfo where
  duration_seconds : ℚ
  start_ms : Int
  end_ms : Int
deriving DecidableEq, Repr

/-- `metrics.longest_gap`: maximal adjacent delta (strictly improving scan
from `-1.0`). -/
def longest_gap (messages : List Message) : Option GapInfo :=
  let sorted_messages := sort_messages messages
  if sorted_messages.length < 2 then none
  else
    let st := (sorted_messages.zip sorted_messages.tail).foldl
      (fun (st : ℚ × Option (Int × Int)) pr =>
        let delta_seconds := ((pr.2.timestamp_ms - pr.1.timestamp_ms : ℤ) : ℚ) / 1000
        if delta_seconds > st.1 then (delta_seconds, some (pr.1.timestamp_ms, pr.2.timestamp_ms))
        else st) ((-1 : ℚ), none)
    st.2.map (fun se => ⟨st.1, se.1, se.2⟩)

/-- The single-codepoint members of the `heart_emojis` set in
`metrics.emoji_stats` (its two `U+FE0F`-suffixed two-character entries can
never equal a single-character `EMOJI_RE` match, and `U+2764` is also
present alone). -/
def HEART_EMOJIS : List Char :=
  [Char.ofNat 0x2764, Char.ofNat 0x1F90D, Char.ofNat 0x1F9E1, Char.ofNat 0x1F499,
   Char.ofNat 0x1F49A, Char.ofNat 0x1F49B, Char.ofNat 0x1F49C, Char.ofNat 0x1F5A4,
   Char.ofNat 0x1F90E, Char.ofNat 0x1F498, Char.ofNat 0x1F49D, Char.ofNat 0x1F496,
   Char.ofNat 0x1F497, Char.ofNat 0x1F493, Char.ofNat 0x1F49E, Char.ofNat 0x1F49F]

/-- `metrics.emoji_stats`: global top-10, per-sender top-5, per-sender
totals, per-sender heart counts. -/
def emoji_stats (messages : List Message) :
    List (Char × Nat) × List (String × List (Char × Nat)) ×
      List (String × Nat) × List (String × Nat) :=
  let st := messages.foldl (fun (st : List (Char × Nat) × List (String × List (Char × Nat)) ×
      List (String × Nat) × List (String × Nat)) m =>
    match m.content with
    | none => st
    | some content =>
      if content = "" then st
      else
        let emojis := extract_emojis content
        if emojis = [] then st
        else
          (emojis.foldl bump st.1,
            upsertWith st.2.1 m.sender_name (fun inner => emojis.foldl bump inner)
              (emojis.foldl bump []),
            bumpBy st.2.2.1 m.sender_name emojis.length,
            bumpBy st.2.2.2 m.sender_name
              (emojis.countP (fun e => HEART_EMOJIS.contains e)))) ([], [], [], [])
  (mostCommon st.1 10, st.2.1.map (fun e => (e.1, mostCommon e.2 5)), st.2.2.1, st.2.2.2)

/-- `metrics.emoji_leader`. -/
def emoji_leader (emoji_totals : List (String × Nat)) : Option (String × Nat) :=
  firstMaxBy (fun e => e.2) emoji_totals

/-- One row of `metrics.media_stats`. -/
structure MediaCounts where
  photos : Nat
  videos : Nat
  audio : Nat
deriving DecidableEq, Repr

/-- `metrics.media_stats` (the defaultdict creates a row for every sender,
media or not). -/
def media_stats (messages : List Message) : List (String × MediaCounts) :=
  messages.foldl (fun acc m =>
    upsertWith acc m.sender_name
      (fun mc => ⟨mc.photos + m.photo_count, mc.videos + m.video_count,
        mc.audio + m.audio_count⟩)
      ⟨m.photo_count, m.video_count, m.audio_count⟩) []

/-- The result of `metrics.media_leaders`. -/
structure MediaLeaders where
  photos : Option (String × Nat)
  videos : Option (String × Nat)
  audio : Option (String × Nat)
deriving DecidableEq, Repr

/-- One category of `metrics.media_leaders`: the first strict maximum,
reported only when positive. -/
def mediaLeaderFor (media_counts : List (String × MediaCounts)) (get : MediaCounts → Nat) :
    Option (String × Nat) :=
  match firstMaxBy (fun e => get e.2) media_counts with
  | some e => if 0 < get e.2 then some (e.1, get e.2) else none
  | none => none

/-- `metrics.media_leaders`. -/
def media_leaders (media_counts : List (String × MediaCounts)) : MediaLeaders :=
  ⟨mediaLeaderFor media_counts (fun mc => mc.photos),
   mediaLeaderFor media_counts (fun mc => mc.videos),
   mediaLeaderFor media_counts (fun mc => mc.audio)⟩

/-- The result of `metrics.link_stats`. -/
structure LinkStats where
  total : Nat
  per_sender : List (String × Nat)
deriving DecidableEq, Repr

/-- `metrics.link_stats`. -/
def link_stats (messages : List Message) : LinkStats :=
  let st := messages.foldl (fun (st : Nat × List (String × Nat)) m =>
    match m.content with
    | none => st
    | some content =>
      if content = "" then st
      else
        let count := extract_links_count content
        if count = 0 then st
        else (st.1 + count, bumpBy st.2 m.sender_name count)) (0, [])
  ⟨st.1, st.2⟩

/-- The result of `metrics.night_stats`. -/
structure NightStats where
  count : Nat
  pct : ℚ
  per_sender : List (String × Nat)
  winner : Option (String × Nat)
deriving DecidableEq, Repr

/-- `metrics.night_stats` (the engine always passes a list, for which
`len(messages)` is available). -/
def night_stats (messages : List Message) (tz : Tz) (start_hour end_hour : Nat) : NightStats :=
  let total_messages := messages.length
  let st := messages.foldl (fun (st : List (String × Nat) × Nat) m =>
    if start_hour ≤ (tz.hourOf m.timestamp_ms : Nat) ∧
        (tz.hourOf m.timestamp_ms : Nat) < end_hour then
      (bump st.1 m.sender_name, st.2 + 1)
    else st) ([], 0)
  { count := st.2
    pct := if total_messages = 0 then 0 else (st.2 : ℚ) / (total_messages : ℚ) * 100
    per_sender := st.1
    winner := firstMaxBy (fun e => e.2) st.1 }

/-- The result of `metrics.last_seen_stats`. -/
structure LastSeenStats where
  counts : List (String × Nat)
  pct_by_sender : List (String × ℚ)
  winner : Option (String × Nat)
  total : Nat
deriving DecidableEq, Repr

/-- `metrics.last_seen_stats`: per day the chronologically last message,
counted per sender for days ending at or after the threshold hour. -/
def last_seen_stats (messages : List Message) (tz : Tz) (threshold_hour : Nat) : LastSeenStats :=
  let sorted_messages := sort_messages messages
  let last_per_day := sorted_messages.foldl (fun acc m =>
    upsertWith acc (tz.dayLabelOf m.timestamp_ms) (fun _ => m) m) []
  let counts := last_per_day.foldl (fun acc e =>
    if threshold_hour ≤ (tz.hourOf e.2.timestamp_ms : Nat) then bump acc e.2.sender_name
    else acc) []
  let total := (counts.map Prod.snd).sum
  { counts := counts
    pct_by_sender := counts.map (fun e =>
      (e.1, if total = 0 then 0 else (e.2 : ℚ) / (total : ℚ) * 100))
    winner := firstMaxBy (fun e => e.2) counts
    total := total }

/-- `metrics.longest_streak`: the longest same-sender run. -/
def longest_streak (messages : List Message) : Option String × Nat :=
  let st := (sort_messages messages).foldl
    (fun (st : Option String × Nat × Option String × Nat) m =>
      let cur : Option String × Nat :=
        if st.2.2.1 = some m.sender_name then (st.2.2.1, st.2.2.2 + 1)
        else (some m.sender_name, 1)
      if st.2.1 < cur.2 then (cur.1, cur.2, cur.1, cur.2)
      else (st.1, st.2.1, cur.1, cur.2)) (none, 0, none, 0)
  (st.1, st.2.1)

/-- `metrics.average_message_length`: mean `tokenize` token count per
sender, over messages with at least one token. -/
def average_message_length (messages : List Message) : List (String × ℚ) :=
  let st := messages.foldl (fun (st : List (String × Nat) × List (String × Nat)) m =>
    match m.content with
    | none => st
    | some content =>
      if content = "" then st
      else
        let words := (tokenize content).length
        if words = 0 then st
        else (bumpBy st.1 m.sender_name words, bump st.2 m.sender_name)) ([], [])
  st.2.map (fun e => (e.1, if e.2 = 0 then 0 else (lookup0 st.1 e.1 : ℚ) / (e.2 : ℚ)))

/-- `metrics.conversation_starters`: the first message plus every message
whose predecessor is more than `threshold_seconds` older. -/
def conversation_starters (messages : List Message) (threshold_seconds : ℚ) :
    List (String × Nat) :=
  let sorted_messages := sort_messages messages
  match sorted_messages with
  | [] => []
  | first :: _ =>
    (sorted_messages.zip sorted_messages.tail).foldl (fun acc pr =>
      if ((pr.2.timestamp_ms - pr.1.timestamp_ms : ℤ) : ℚ) / 1000 > threshold_seconds then
        bump acc pr.2.sender_name
      else acc) (bump [] first.sender_name)

/-- `metrics.popular_phrases`: 2..5-grams of the raw tokens, filtered by
`is_meaningful_phrase`, global top-10 and per-sender top-5. -/
def popular_phrases (messages : List Message) :
    List (String × Nat) × List (String × List (String × Nat)) :=
  let gp := messages.foldl (fun (gp : List (String × Nat) × List (String × List (String × Nat))) m =>
    match m.content with
    | none => gp
    | some content =>
      if content = "" then gp
      else if isRedacted content then gp
      else
        let tokens := tokenize_raw content
        if tokens = [] then gp
        else
          let phrases := ([2, 3, 4, 5].map (fun n => generate_ngrams tokens n)).join
          let valid_phrases := phrases.filter (fun p => is_meaningful_phrase p)
          (valid_phrases.foldl bump gp.1,
            upsertWith gp.2 m.sender_name (fun inner => valid_phrases.foldl bump inner)
              (valid_phrases.foldl bump []))) ([], [])
  (mostCommon gp.1 10, gp.2.map (fun e => (e.1, mostCommon e.2 5)))

/-- `metrics.date_range` (datetimes modelled by their timestamps). -/
def date_range (messages : List Message) : Option Int × Option Int :=
  let sorted_messages := sort_messages messages
  (sorted_messages.head?.map (fun m => m.timestamp_ms),
   sorted_messages.getLast?.map (fun m => m.timestamp_ms))

/-- The `setdefault` loop of `compute_metrics`: every participant gets an
all-empty `ResponseStats` row if absent. -/
def setdefaultStats (stats : List (String × ResponseStats)) (participants : List String) :
    List (String × ResponseStats) :=
  participants.foldl (fun acc name =>
    if (acc.lookup name).isSome then acc
    else acc ++ [(name, ⟨0, none, none, none, none, none⟩)]) stats

/-- The metrics bundle returned by `metrics.compute_metrics` (one field per
dict key; datetimes are modelled by timestamps). -/
structure MetricsBundle where
  total_messages : Nat
  text_messages : Nat
  participants : List String
  message_counts : List (String × Nat)
  message_shares : List (String × ℚ)
  top_sender : Option String
  response_time_deltas : List (String × List ℚ)
  response_time_stats : List (String × ResponseStats)
  response_time_overall : ResponseStats
  response_time_extremes : Extremes
  response_time_fastest : Option (String × ℚ)
  response_time_slowest : Option (String × ℚ)
  top_words : List (String × Nat)
  top_words_by_sender : List (String × List (String × Nat))
  top_phrases : List (String × Nat)
  top_phrases_by_sender : List (String × List (String × Nat))
  top_hours : List (Nat × Nat)
  hourly_counts : List Nat
  top_weekdays : List (String × Nat)
  weekday_counts : List Nat
  messages_per_month : List (String × Nat)
  most_active_day : Option (String × Nat)
  longest_gap : Option GapInfo
  top_emojis : List (Char × Nat)
  top_emojis_by_sender : List (String × List (Char × Nat))
  emoji_totals : List (String × Nat)
  emoji_hearts : List (String × Nat)
  emoji_leader : Option (String × Nat)
  media_counts : List (String × MediaCounts)
  media_leaders : MediaLeaders
  link_stats : LinkStats
  night_stats : NightStats
  last_seen_stats : LastSeenStats
  fast_reply_stats : FastReplyStats
  sentiment_per_sender : List (String × SentimentEntry)
  sentiment_by_month : List (String × ℝ)
  longest_streak_sender : Option String
  longest_streak_length : Nat
  date_range_start : Option Int
  date_range_end : Option Int
  timezone : String
  avg_len_stats : List (String × ℚ)
  starters_stats : List (String × Nat)

/-- `metrics.compute_metrics`. -/
noncomputable def compute_metrics (messages : List Message) (tz : Tz)
    (min_response_seconds max_response_seconds : ℚ) (sentiment_scorer : Option Scorer) :
    MetricsBundle :=
  let sorted_messages := sort_messages messages
  let counts := message_counts sorted_messages
  let total := sorted_messages.length
  let shares := counts.map (fun e =>
    (e.1, if total = 0 then (0 : ℚ) else (e.2 : ℚ) / (total : ℚ) * 100))
  let participants := stableSortBy
    (fun a b => decide (lookup0 counts b ≤ lookup0 counts a)) (counts.map Prod.fst)
  let deltas := response_time_deltas sorted_messages min_response_seconds max_response_seconds
  let response_stats := summarize_response_times deltas
  let leaders := response_time_leaders response_stats
  let ws := word_stats sorted_messages
  let ph := popular_phrases sorted_messages
  let es := emoji_stats sorted_messages
  let media := media_stats sorted_messages
  let sent := sentiment_stats sorted_messages tz sentiment_scorer
  let streak := longest_streak sorted_messages
  let dr := date_range sorted_messages
  { total_messages := total
    text_messages := sorted_messages.countP (fun m => hasContent m)
    participants := participants
    message_counts := counts
    message_shares := shares
    top_sender := participants.head?
    response_time_deltas := deltas
    response_time_stats := setdefaultStats response_stats participants
    response_time_overall := overall_response_stats deltas
    response_time_extremes := response_time_extremes deltas
    response_time_fastest := leaders.1
    response_time_slowest := leaders.2
    top_words := ws.1
    top_words_by_sender := ws.2
    top_phrases := ph.1
    top_phrases_by_sender := ph.2
    top_hours := top_hours sorted_messages tz
    hourly_counts := hourly_counts sorted_messages tz
    top_weekdays := top_weekdays sorted_messages tz
    weekday_counts := weekday_counts sorted_messages tz
    messages_per_month := messages_per_month sorted_messages tz
    most_active_day := most_active_day sorted_messages tz
    longest_gap := longest_gap sorted_messages
    top_emojis := es.1
    top_emojis_by_sender := es.2.1
    emoji_totals := es.2.2.1
    emoji_hearts := es.2.2.2
    emoji_leader := emoji_leader es.2.2.1
    media_counts := media
    media_leaders := media_leaders media
    link_stats := link_stats sorted_messages
    night_stats := night_stats sorted_messages tz 0 5
    last_seen_stats := last_seen_stats sorted_messages tz 23
    fast_reply_stats := fast_reply_stats sorted_messages 300
    sentiment_per_sender := sent.1
    sentiment_by_month := sent.2
    longest_streak_sender := streak.1
    longest_streak_length := streak.2
    date_range_start := dr.1
    date_range_end := dr.2
    timezone := tz.key
    avg_len_stats := average_message_length sorted_messages
    starters_stats := conversation_starters sorted_messages 21600 }

/-- C7: on the empty message list `compute_metrics` returns (without any
exception — the embedding is a total function) the bundle of neutral
defaults, for every timezone, response bounds and scorer; and night stats
for a conversation with no message in the `[0, 5)` local-hour window report
count 0, pct 0.0 and no winner. -/
theorem compute_metrics_empty_defaults :
    (∀ (tz : Tz) (minS maxS : ℚ) (scorer : Option Scorer),
      compute_metrics [] tz minS maxS scorer =
        { total_messages := 0
          text_messages := 0
          participants := []
          message_counts := []
          message_shares := []
          top_sender := none
          response_time_deltas := []
          response_time_stats := []
          response_time_overall := ⟨0, none, none, none, none, none⟩
          response_time_extremes := ⟨none, none, none, none⟩
          response_time_fastest := none
          response_time_slowest := none
          top_words := []
          top_words_by_sender := []
          top_phrases := []
          top_phrases_by_sender := []
          top_hours := []
          hourly_counts := List.replicate 24 0
          top_weekdays := []
          weekday_counts := List.replicate 7 0
          messages_per_month := []
          most_active_day := none
          longest_gap := none
          top_emojis := []
          top_emojis_by_sender := []
          emoji_totals := []
          emoji_hearts := []
          emoji_leader := none
          media_counts := []
          media_leaders := ⟨none, none, none⟩
          link_stats := ⟨0, []⟩
          night_stats := ⟨0, 0, [], none⟩
          last_seen_stats := ⟨[], [], none, 0⟩
          fast_reply_stats := ⟨none, [], [], []⟩
          sentiment_per_sender := []
          sentiment_by_month := []
          longest_streak_sender := none
          longest_streak_length := 0
          date_range_start := none
          date_range_end := none
          timezone := tz.key
          avg_len_stats := []
          starters_stats := [] }) ∧
    (∀ (messages : List Message) (tz : Tz),
      (∀ m ∈ messages, ¬(0 ≤ (tz.hourOf m.timestamp_ms : Nat) ∧
        (tz.hourOf m.timestamp_ms : Nat) < 5)) →
      night_stats messages tz 0 5 = ⟨0, 0, [], none⟩) := by
  constructor
  · intro tz minS maxS scorer
    cases scorer with
    | none => rfl
    | some sc => rfl
  · intro messages tz h
    have hfold : ∀ (ms : List Message), (∀ m ∈ ms, ¬(0 ≤ (tz.hourOf m.timestamp_ms : Nat) ∧
        (tz.hourOf m.timestamp_ms : Nat) < 5)) →
        ∀ (acc : List (String × Nat) × Nat),
        ms.foldl (fun (st : List (String × Nat) × Nat) m =>
          if 0 ≤ (tz.hourOf m.timestamp_ms : Nat) ∧ (tz.hourOf m.timestamp_ms : Nat) < 5 then
            (bump st.1 m.sender_name, st.2 + 1)
          else st) acc = acc := by
      intro ms
      induction ms with
      | nil => intro _ acc; rfl
      | cons m rest ih =>
        intro hms acc
        rw [List.foldl_cons, if_neg (hms m (by simp))]
        exact ih (fun m' hm' => hms m' (by simp [hm'])) acc
    unfold night_stats
    rw [hfold messages h ([], 0)]
    have hpct : (if messages.length = 0 then (0 : ℚ)
        else ((0 : Nat) : ℚ) / (messages.length : ℚ) * 100) = 0 := by
      split_ifs <;> simp
    simp only [hpct]
    rfl

/-- Witness for C7's night-stats clause: one message at local hour 12. -/
theorem compute_metrics_empty_defaults_witness :
    (∀ m ∈ [(⟨"A", 0, none, none, 0, 0, 0, 0, 0⟩ : Message)],
      ¬(0 ≤ (((⟨fun _ => ⟨12, by omega⟩, fun _ => ⟨0, by omega⟩, fun _ => "1970-01",
          fun _ => "1970-01-01", "UTC"⟩ : Tz)).hourOf m.timestamp_ms : Nat) ∧
        (((⟨fun _ => ⟨12, by omega⟩, fun _ => ⟨0, by omega⟩, fun _ => "1970-01",
          fun _ => "1970-01-01", "UTC"⟩ : Tz)).hourOf m.timestamp_ms : Nat) < 5)) ∧
    night_stats [(⟨"A", 0, none, none, 0, 0, 0, 0, 0⟩ : Message)]
      (⟨fun _ => ⟨12, by omega⟩, fun _ => ⟨0, by omega⟩, fun _ => "1970-01",
        fun _ => "1970-01-01", "UTC"⟩ : Tz) 0 5 = ⟨0, 0, [], none⟩ := by
  refine ⟨by intro m _; simp, ?_⟩
  exact compute_metrics_empty_defaults.2 _ _ (by intro m _; simp)

end MW
